import Mathlib

/-!
# The heap controller: reconciliation loop over an external resource store

A shallow embedding of `main.go`, `deployment.go`, `service.go`, `ingress.go`
and `event.go`.

* Go structs become Lean structures with the same field names.
* A Go slice is `Option (List α)` and a Go `map[string]string` is
  `Option (Finmap ..)`: `none` is the nil slice / nil map, which
  `reflect.DeepEqual` tells apart from an empty one.  With this representation
  Lean's structural equality on the spec types is `reflect.DeepEqual`.
* `uint32` fields are natural numbers; the code only compares them with zero
  and copies them.
* A Go `error` is its message; a nil-able error is `Option String`.
* Everything outside the process (the HTTP store and the clock) is a `World`:
  a state type with a transition function answering each request.  The code
  runs in the state-passing monad `Prog`, which records every request issued
  and stops at a Go run-time panic.
* `log.Println` calls are not modelled (the log destination is external).
* `json.Marshal` cannot fail on the structs marshalled here (strings, maps of
  strings, unsigned integers, `time.Now()`), so the branches taken on a marshal
  error are not reachable and not modelled.  The world is handed the Go struct
  of each request body; what a store can read back from the JSON of it is the
  round trip `wire`, defined from the struct tags.
-/

namespace HeapController

/-! ## Data model (`main.go`) -/

/-- Go `map[string]string`; `none` is the nil map. -/
abbrev StringMap := Option (Finmap (fun _ : String => String))

/-- Go slice `[]α`; `none` is the nil slice. -/
abbrev Slice (α : Type) := Option (List α)

/-- The struct `ownerReference` of `main.go`. -/
structure ownerReference where
  APIVersion : String
  Kind : String
  Name : String
  UID : String
  Controller : Bool
  deriving DecidableEq

/-- The struct `metadata` of `main.go`; the defaults are Go's zero values. -/
structure metadata where
  Name : String := ""
  Namespace : String := ""
  Labels : StringMap := none
  Annotations : StringMap := none
  UID : String := ""
  GenerateName : String := ""
  ResourceVersion : String := ""
  OwnerReferences : Slice ownerReference := none
  deriving DecidableEq

/-- The struct `heapSpec` of `main.go`. -/
structure heapSpec where
  Host : String := ""
  Image : String := ""
  Command : Slice String := none
  Replicas : Nat := 0
  Port : Nat := 0
  deriving DecidableEq

/-- The struct `heap` of `main.go`: a source. -/
structure heap where
  Kind : String := ""
  APIVersion : String := ""
  Metadata : metadata := {}
  Spec : heapSpec := {}
  deriving DecidableEq

/-! ## Workload types (`deployment.go`) -/

/-- The struct `container`. -/
structure container where
  Name : String
  Image : String
  Command : Slice String
  deriving DecidableEq

/-- The struct `podSpec`. -/
structure podSpec where
  Containers : Slice container
  deriving DecidableEq

/-- The struct `podTemplateSpec`. -/
structure podTemplateSpec where
  Metadata : metadata
  Spec : podSpec
  deriving DecidableEq

/-- The struct `labelSelector`. -/
structure labelSelector where
  MatchLabels : StringMap
  deriving DecidableEq

/-- The struct `deploymentSpec`. -/
structure deploymentSpec where
  Replicas : Nat
  Selector : labelSelector
  Template : podTemplateSpec
  deriving DecidableEq

/-- The struct `deployment`: the Workload child. -/
structure deployment where
  Metadata : metadata
  Spec : deploymentSpec
  deriving DecidableEq

/-! ## Endpoint types (`service.go`) -/

/-- The struct `servicePort`. -/
structure servicePort where
  Name : String
  Protocol : String
  Port : Nat
  TargetPort : Nat
  deriving DecidableEq

/-- The struct `serviceSpec`; `Type_` is the Go field `Type`, a reserved word
here. -/
structure serviceSpec where
  Ports : Slice servicePort
  Selector : StringMap
  Type_ : String
  deriving DecidableEq

/-- The struct `service`: the Endpoint child. -/
structure service where
  Metadata : metadata
  Spec : serviceSpec
  deriving DecidableEq

/-! ## Route types (`ingress.go`) -/

/-- The struct `ingressBackend`. -/
structure ingressBackend where
  ServiceName : String
  ServicePort : String
  deriving DecidableEq

/-- The struct `httpIngressPath`. -/
structure httpIngressPath where
  Path : String
  Backend : ingressBackend
  deriving DecidableEq

/-- The struct `httpIngressRule`. -/
structure httpIngressRule where
  Paths : Slice httpIngressPath
  deriving DecidableEq

/-- The struct `ingressRule`. -/
structure ingressRule where
  Host : String
  HTTP : httpIngressRule
  deriving DecidableEq

/-- The struct `ingressSpec`. -/
structure ingressSpec where
  Rules : Slice ingressRule
  deriving DecidableEq

/-- The struct `ingress`: the Route child. -/
structure ingress where
  Metadata : metadata
  Spec : ingressSpec
  deriving DecidableEq

/-! ## Notification types (`event.go`) -/

/-- The struct `objectReference`. -/
structure objectReference where
  Kind : String
  Namespace : String
  Name : String
  UID : String
  APIVersion : String
  deriving DecidableEq

/-- The struct `event`; a `time.Time` is an instant counted as a natural
number. -/
structure event where
  Metadata : metadata
  Reason : String
  Message : String
  InvolvedObject : objectReference
  Count : Nat
  FirstTimestamp : Nat
  LastTimestamp : Nat
  deriving DecidableEq

/-! ## The outside world -/

/-- One HTTP exchange the controller sets out to make, recorded when its
request is built.  Each constructor is one request site of the source
(`http.Get`, `http.NewRequest` followed by `http.DefaultClient.Do`, or
`http.Post`); the body is the struct handed to `json.Marshal`. -/
inductive Op where
  | listHeaps (server : String)
  | getDeployment (server ns name : String)
  | createDeployment (server : String) (d : deployment)
  | updateDeployment (server : String) (d : deployment)
  | getService (server ns name : String)
  | createService (server : String) (s : service)
  | updateService (server : String) (s : service)
  | getIngress (server ns name : String)
  | createIngress (server : String) (i : ingress)
  | updateIngress (server : String) (i : ingress)
  | postEvent (server : String) (e : event)
  deriving DecidableEq

/-- The HTTP method of an exchange. -/
def Op.method : Op → String
  | .listHeaps _ => "GET"
  | .getDeployment _ _ _ => "GET"
  | .createDeployment _ _ => "POST"
  | .updateDeployment _ _ => "PUT"
  | .getService _ _ _ => "GET"
  | .createService _ _ => "POST"
  | .updateService _ _ => "PUT"
  | .getIngress _ _ _ => "GET"
  | .createIngress _ _ => "POST"
  | .updateIngress _ _ => "PUT"
  | .postEvent _ _ => "POST"

/-- The URL of an exchange, as the `fmt.Sprintf` calls of the source build it
(`group = "akins.org"`, `version = "v1alpha1"`). -/
def Op.url : Op → String
  | .listHeaps server => server ++ "/apis/akins.org/v1alpha1/heaps"
  | .getDeployment server ns name =>
      server ++ "/apis/apps/v1/namespaces/" ++ ns ++ "/deployments/" ++ name
  | .createDeployment server d =>
      server ++ "/apis/apps/v1/namespaces/" ++ d.Metadata.Namespace ++ "/deployments"
  | .updateDeployment server d =>
      server ++ "/apis/apps/v1/namespaces/" ++ d.Metadata.Namespace ++ "/deployments/"
        ++ d.Metadata.Name
  | .getService server ns name =>
      server ++ "/api/v1/namespaces/" ++ ns ++ "/services/" ++ name
  | .createService server s =>
      server ++ "/api/v1/namespaces/" ++ s.Metadata.Namespace ++ "/services"
  | .updateService server s =>
      server ++ "/api/v1/namespaces/" ++ s.Metadata.Namespace ++ "/services/"
        ++ s.Metadata.Name
  | .getIngress server ns name =>
      server ++ "/apis/extensions/v1beta1/namespaces/" ++ ns ++ "/ingresses/" ++ name
  | .createIngress server i =>
      server ++ "/apis/extensions/v1beta1/namespaces/" ++ i.Metadata.Namespace ++ "/ingresses"
  | .updateIngress server i =>
      server ++ "/apis/extensions/v1beta1/namespaces/" ++ i.Metadata.Namespace
        ++ "/ingresses/" ++ i.Metadata.Name
  | .postEvent server e =>
      server ++ "/api/v1/namespaces/" ++ e.Metadata.Namespace ++ "/events"

/-- A response body, seen through `ioutil.ReadAll` followed by
`json.Unmarshal` into each of the types the code decodes: either the error
of reading or decoding, or the decoded value. -/
structure Body where
  heaps : Except String (List heap)
  deployment : Except String deployment
  service : Except String service
  ingress : Except String ingress

/-- The pair `(resp, err)` returned by the Go HTTP client.
* `invalidRequest`: `http.NewRequest` rejected the URL; `resp` is nil.
* `failure`: the exchange failed, `err` is not nil and `resp` is nil.
* `failureWithResponse`: `err` is not nil and `resp` is not nil (the redirect
  policy gave up).
* `response`: `err` is nil. -/
inductive Reply where
  | invalidRequest (err : String)
  | failure (err : String)
  | failureWithResponse (err : String) (status : Nat) (body : Body)
  | response (status : Nat) (body : Body)

/-- The environment of the process: how the store answers each exchange and
what the clock reads, both as transitions of an arbitrary state. -/
structure World (σ : Type) where
  respond : σ → Op → Reply × σ
  now : σ → Nat × σ

/-! ## The program monad -/

/-- How a Go call ends: it returns, or a run-time panic unwinds the stack
(the source has no `recover`). -/
inductive Res (α : Type) where
  | ok (a : α)
  | panic (msg : String)
  deriving DecidableEq

/-- The outcome of running a piece of the program: how it ended, the state of
the world afterwards and the exchanges issued, in order. -/
structure Out (σ α : Type) where
  res : Res α
  st : σ
  ops : List Op

/-- A piece of the program: a function of the state of the world. -/
def Prog (σ α : Type) : Type := σ → Out σ α

/-- Returning a value issues nothing. -/
def Prog.pure {σ α : Type} (a : α) : Prog σ α := fun s => ⟨.ok a, s, []⟩

/-- Sequencing: a panic in the first part skips the rest. -/
def Prog.bind {σ α β : Type} (x : Prog σ α) (f : α → Prog σ β) : Prog σ β := fun s =>
  match x s with
  | ⟨.ok a, s1, t1⟩ => ⟨(f a s1).res, (f a s1).st, t1 ++ (f a s1).ops⟩
  | ⟨.panic msg, s1, t1⟩ => ⟨.panic msg, s1, t1⟩

instance {σ : Type} : Monad (Prog σ) where
  pure := Prog.pure
  bind := Prog.bind

/-- Issue one exchange and obtain the client's `(resp, err)`. -/
def call {σ : Type} (W : World σ) (op : Op) : Prog σ Reply := fun s =>
  ⟨.ok (W.respond s op).1, (W.respond s op).2, [op]⟩

/-- The call `time.Now()`. -/
def timeNow {σ : Type} (W : World σ) : Prog σ Nat := fun s =>
  ⟨.ok (W.now s).1, (W.now s).2, []⟩

/-- A run-time panic. -/
def goPanic {σ α : Type} (msg : String) : Prog σ α := fun s => ⟨.panic msg, s, []⟩

/-! ## `main.go` helpers -/

/-- The function `wrapError`: `fmt.Errorf(message+" %v", err)` when `err` is not
nil, `errors.New(message)` otherwise. -/
def wrapError (err : Option String) (message : String) : String :=
  match err with
  | some e => message ++ " " ++ e
  | none => message

/-- The function `createOwnerReferences`. -/
def createOwnerReferences (h : heap) : Slice ownerReference :=
  some [{ APIVersion := h.APIVersion
          Kind := h.Kind
          Name := h.Metadata.Name
          UID := h.Metadata.UID
          Controller := true }]

/-- The function `listHeaps`. -/
def listHeaps {σ : Type} (W : World σ) (server : String) :
    Prog σ (Except String (List heap)) := do
  let r ← call W (Op.listHeaps server)
  match r with
  | .invalidRequest err => pure (.error err)
  | .failure err => pure (.error err)
  | .failureWithResponse err _ _ => pure (.error err)
  | .response status body =>
    if status ≠ 200 then
      pure (.error ("listHeaps: unexpected status " ++ toString status))
    else
      match body.heaps with
      | .error err => pure (.error err)
      | .ok items => pure (.ok items)

/-! ## `event.go` -/

/-- The composite literal `e := event{...}` of `sendEvent`. -/
def newEvent (h : heap) (reason message : String) (now : Nat) : event :=
  { Metadata := { Namespace := h.Metadata.Namespace
                  GenerateName := "heaps-" ++ h.Metadata.Name }
    Reason := reason
    Message := message
    LastTimestamp := now
    FirstTimestamp := now
    Count := 1
    InvolvedObject := { Kind := h.Kind
                        APIVersion := h.APIVersion
                        Name := h.Metadata.Name
                        Namespace := h.Metadata.Namespace
                        UID := h.Metadata.UID } }

/-- The function `sendEvent`.  After `http.Post` the code logs a non-nil
`err` and goes on to `defer resp.Body.Close()`, which evaluates
`resp.Body` at once: with a nil `resp` that is a nil-pointer dereference. -/
def sendEvent {σ : Type} (W : World σ) (server : String) (h : heap)
    (reason message : String) : Prog σ Unit := do
  let now ← timeNow W
  let e := newEvent h reason message now
  let r ← call W (Op.postEvent server e)
  match r with
  | .invalidRequest _ => goPanic "invalid memory address or nil pointer dereference"
  | .failure _ => goPanic "invalid memory address or nil pointer dereference"
  | .failureWithResponse _ _ _ => pure ()
  | .response _ _ => pure ()

/-! ## `deployment.go` -/

/-- The composite literal `d := deployment{...}` at the head of
`ensureDeployment`, with the defaulting of `replicas` and the `labels` map
that precede it. -/
def desiredDeployment (h : heap) : deployment :=
  let replicas := if h.Spec.Replicas = 0 then 1 else h.Spec.Replicas
  let labels : StringMap := some (Finmap.singleton "heap" h.Metadata.Name)
  { Metadata := { Name := h.Metadata.Name
                  Namespace := h.Metadata.Namespace
                  Labels := h.Metadata.Labels
                  Annotations := h.Metadata.Annotations
                  OwnerReferences := createOwnerReferences h }
    Spec := { Replicas := replicas
              Selector := { MatchLabels := labels }
              Template := { Metadata := { Labels := labels }
                            Spec := { Containers := some [{ Name := h.Metadata.Name
                                                            Image := h.Spec.Image
                                                            Command := h.Spec.Command }] } } } }

/-- The function `deploymentsEqual`: `reflect.DeepEqual(a.Spec, b.Spec)`. -/
def deploymentsEqual (a b : deployment) : Bool := decide (a.Spec = b.Spec)

/-- The function `getDeployment`; `none` is the nil pointer returned on 404. -/
def getDeployment {σ : Type} (W : World σ) (server ns name : String) :
    Prog σ (Except String (Option deployment)) := do
  let r ← call W (Op.getDeployment server ns name)
  match r with
  | .invalidRequest err => pure (.error err)
  | .failure err => pure (.error err)
  | .failureWithResponse err _ _ => pure (.error err)
  | .response status body =>
    if status = 404 then pure (.ok none)
    else if status = 200 then
      match body.deployment with
      | .error err => pure (.error err)
      | .ok d => pure (.ok (some d))
    else pure (.error ("unexpected status: " ++ toString status))

/-- The function `deployDeployment`: a PUT on the item when `update`, a POST on
the collection otherwise. -/
def deployDeployment {σ : Type} (W : World σ) (server : String) (update : Bool)
    (expectedStatus : Nat) (d : deployment) : Prog σ (Option String) := do
  let method := if update then "PUT" else "POST"
  let r ← call W (if update then Op.updateDeployment server d else Op.createDeployment server d)
  match r with
  | .invalidRequest err => pure (some (wrapError (some err) "failed to create request"))
  | .failure err => pure (some (wrapError (some err) ("failed to " ++ method ++ " deployment")))
  | .failureWithResponse err _ _ =>
    pure (some (wrapError (some err) ("failed to " ++ method ++ " deployment")))
  | .response status _ =>
    if status ≠ expectedStatus then
      pure (some (wrapError none ("unexpected status: " ++ toString status)))
    else pure none

/-- The function `ensureDeployment`; the result is the returned `error`. -/
def ensureDeployment {σ : Type} (W : World σ) (server : String) (h : heap) :
    Prog σ (Option String) := do
  let d := desiredDeployment h
  let got ← getDeployment W server h.Metadata.Namespace h.Metadata.Name
  match got with
  | .error err => pure (some (wrapError (some err) "failed to get deployment"))
  | .ok (some old) =>
    if deploymentsEqual old d then pure none
    else do
      let d := { d with
        Metadata := { d.Metadata with ResourceVersion := old.Metadata.ResourceVersion } }
      let failed ← deployDeployment W server true 200 d
      match failed with
      | some err => pure (some (wrapError (some err) "failed to update deployment"))
      | none => do
        sendEvent W server h "deploymentUpdated" "updated deployment"
        pure none
  | .ok none => do
    let failed ← deployDeployment W server false 201 d
    match failed with
    | some err => pure (some (wrapError (some err) "failed to create deployment"))
    | none => do
      sendEvent W server h "deploymentCreated" "created deployment"
      pure none

/-! ## `service.go` -/

/-- The composite literal `s := service{...}` at the head of `ensureService`. -/
def desiredService (h : heap) : service :=
  { Metadata := { Name := h.Metadata.Name
                  Namespace := h.Metadata.Namespace
                  Labels := h.Metadata.Labels
                  Annotations := h.Metadata.Annotations
                  OwnerReferences := createOwnerReferences h }
    Spec := { Selector := some (Finmap.singleton "heap" h.Metadata.Name)
              Type_ := "ClusterIP"
              Ports := some [{ Name := "heap"
                               Port := h.Spec.Port
                               TargetPort := h.Spec.Port
                               Protocol := "TCP" }] } }

/-- The function `servicesEqual`: `reflect.DeepEqual(a.Spec, b.Spec)`. -/
def servicesEqual (a b : service) : Bool := decide (a.Spec = b.Spec)

/-- The function `getService`. -/
def getService {σ : Type} (W : World σ) (server ns name : String) :
    Prog σ (Except String (Option service)) := do
  let r ← call W (Op.getService server ns name)
  match r with
  | .invalidRequest err => pure (.error err)
  | .failure err => pure (.error err)
  | .failureWithResponse err _ _ => pure (.error err)
  | .response status body =>
    if status = 404 then pure (.ok none)
    else if status = 200 then
      match body.service with
      | .error err => pure (.error err)
      | .ok d => pure (.ok (some d))
    else pure (.error ("unexpected status: " ++ toString status))

/-- The function `deployService`. -/
def deployService {σ : Type} (W : World σ) (server : String) (update : Bool)
    (expectedStatus : Nat) (s : service) : Prog σ (Option String) := do
  let method := if update then "PUT" else "POST"
  let r ← call W (if update then Op.updateService server s else Op.createService server s)
  match r with
  | .invalidRequest err => pure (some (wrapError (some err) "failed to create request"))
  | .failure err => pure (some (wrapError (some err) ("failed to " ++ method ++ " service")))
  | .failureWithResponse err _ _ =>
    pure (some (wrapError (some err) ("failed to " ++ method ++ " service")))
  | .response status _ =>
    if status ≠ expectedStatus then
      pure (some (wrapError none ("unexpected status: " ++ toString status)))
    else pure none

/-- The function `ensureService`; a fetch error is returned unwrapped. -/
def ensureService {σ : Type} (W : World σ) (server : String) (h : heap) :
    Prog σ (Option String) := do
  let s := desiredService h
  let got ← getService W server h.Metadata.Namespace h.Metadata.Name
  match got with
  | .error err => pure (some err)
  | .ok (some old) =>
    if servicesEqual old s then pure none
    else do
      let s := { s with
        Metadata := { s.Metadata with ResourceVersion := old.Metadata.ResourceVersion } }
      let failed ← deployService W server true 200 s
      match failed with
      | some err => pure (some (wrapError (some err) "failed to update service"))
      | none => do
        sendEvent W server h "serviceUpdated" "updated service"
        pure none
  | .ok none => do
    let failed ← deployService W server false 201 s
    match failed with
    | some err => pure (some (wrapError (some err) "failed to create service"))
    | none => do
      sendEvent W server h "serviceCreated" "created service"
      pure none

/-! ## `ingress.go` -/

/-- The composite literal `i := ingress{...}` at the head of `ensureIngress`. -/
def desiredIngress (h : heap) : ingress :=
  { Metadata := { Name := h.Metadata.Name
                  Namespace := h.Metadata.Namespace
                  Labels := h.Metadata.Labels
                  Annotations := h.Metadata.Annotations
                  OwnerReferences := createOwnerReferences h }
    Spec := { Rules := some [{ Host := h.Spec.Host
                               HTTP := { Paths := some [{ Path := "/"
                                                          Backend := { ServiceName := h.Metadata.Name
                                                                       ServicePort := "heap" } }] } }] } }

/-- The function `ingressesEqual`: `reflect.DeepEqual(a.Spec, b.Spec)`. -/
def ingressesEqual (a b : ingress) : Bool := decide (a.Spec = b.Spec)

/-- The function `getIngress`. -/
def getIngress {σ : Type} (W : World σ) (server ns name : String) :
    Prog σ (Except String (Option ingress)) := do
  let r ← call W (Op.getIngress server ns name)
  match r with
  | .invalidRequest err => pure (.error err)
  | .failure err => pure (.error err)
  | .failureWithResponse err _ _ => pure (.error err)
  | .response status body =>
    if status = 404 then pure (.ok none)
    else if status = 200 then
      match body.ingress with
      | .error err => pure (.error err)
      | .ok d => pure (.ok (some d))
    else pure (.error ("unexpected status: " ++ toString status))

/-- The function `deployIngress` (its marshal message says "service", on a
branch that is not reachable). -/
def deployIngress {σ : Type} (W : World σ) (server : String) (update : Bool)
    (expectedStatus : Nat) (i : ingress) : Prog σ (Option String) := do
  let method := if update then "PUT" else "POST"
  let r ← call W (if update then Op.updateIngress server i else Op.createIngress server i)
  match r with
  | .invalidRequest err => pure (some (wrapError (some err) "failed to create request"))
  | .failure err => pure (some (wrapError (some err) ("failed to " ++ method ++ " ingress")))
  | .failureWithResponse err _ _ =>
    pure (some (wrapError (some err) ("failed to " ++ method ++ " ingress")))
  | .response status _ =>
    if status ≠ expectedStatus then
      pure (some (wrapError none ("unexpected status: " ++ toString status)))
    else pure none

/-- The function `ensureIngress`; a fetch error is returned unwrapped. -/
def ensureIngress {σ : Type} (W : World σ) (server : String) (h : heap) :
    Prog σ (Option String) := do
  let i := desiredIngress h
  let got ← getIngress W server h.Metadata.Namespace h.Metadata.Name
  match got with
  | .error err => pure (some err)
  | .ok (some old) =>
    if ingressesEqual old i then pure none
    else do
      let i := { i with
        Metadata := { i.Metadata with ResourceVersion := old.Metadata.ResourceVersion } }
      let failed ← deployIngress W server true 200 i
      match failed with
      | some err => pure (some (wrapError (some err) "failed to update ingress"))
      | none => do
        sendEvent W server h "ingressUpdated" "updated ingress"
        pure none
  | .ok none => do
    let failed ← deployIngress W server false 201 i
    match failed with
    | some err => pure (some (wrapError (some err) "failed to create ingress"))
    | none => do
      sendEvent W server h "ingressCreated" "created ingress"
      pure none

/-! ## The reconciliation loop (`main.go`) -/

/-- The body of the `for _, h := range heaps` statement of `loop`; each
`continue` ends the body. -/
def loopBody {σ : Type} (W : World σ) (server : String) (h : heap) : Prog σ Unit := do
  if h.Spec.Image = "" then
    sendEvent W server h "missingImage" "no image specified"
  else
    let failed ← ensureDeployment W server h
    match failed with
    | some err => sendEvent W server h "deploymentFailed" err
    | none =>
      if h.Spec.Port ≠ 0 then
        let failed ← ensureService W server h
        match failed with
        | some err => sendEvent W server h "serviceFailed" err
        | none =>
          if h.Spec.Host ≠ "" then
            let failed ← ensureIngress W server h
            match failed with
            | some err => sendEvent W server h "ingressFailed" err
            | none => pure ()
          else pure ()
      else pure ()

/-- The statement `for _, h := range heaps` of `loop`. -/
def loopRange {σ : Type} (W : World σ) (server : String) : List heap → Prog σ Unit
  | [] => pure ()
  | h :: rest => do
    loopBody W server h
    loopRange W server rest

/-- The function `loop`: one pass of the controller. -/
def loop {σ : Type} (W : World σ) (server : String) : Prog σ Unit := do
  let listed ← listHeaps W server
  match listed with
  | .error _ => pure ()
  | .ok heaps => loopRange W server heaps

/-! ## Vocabulary for the properties -/

/-- The three child kinds. -/
inductive Kind where
  | workload
  | endpoint
  | route
  deriving DecidableEq

/-- The child kind an exchange addresses, if any. -/
def Op.child : Op → Option Kind
  | .getDeployment _ _ _ => some .workload
  | .createDeployment _ _ => some .workload
  | .updateDeployment _ _ => some .workload
  | .getService _ _ _ => some .endpoint
  | .createService _ _ => some .endpoint
  | .updateService _ _ => some .endpoint
  | .getIngress _ _ _ => some .route
  | .createIngress _ _ => some .route
  | .updateIngress _ _ => some .route
  | .listHeaps _ => none
  | .postEvent _ _ => none

/-- The exchange is a fetch (a GET). -/
def Op.isGet : Op → Bool
  | .listHeaps _ => true
  | .getDeployment _ _ _ => true
  | .getService _ _ _ => true
  | .getIngress _ _ _ => true
  | _ => false

/-- The exchange is a create call on a child. -/
def Op.isCreate : Op → Bool
  | .createDeployment _ _ => true
  | .createService _ _ => true
  | .createIngress _ _ => true
  | _ => false

/-- The exchange is an update call on a child. -/
def Op.isUpdate : Op → Bool
  | .updateDeployment _ _ => true
  | .updateService _ _ => true
  | .updateIngress _ _ => true
  | _ => false

/-- The exchange is a notification. -/
def Op.isEvent : Op → Bool
  | .postEvent _ _ => true
  | _ => false

/-- The identity of the child representation sent by a create or update call. -/
def Op.sentMetadata : Op → Option metadata
  | .createDeployment _ d => some d.Metadata
  | .updateDeployment _ d => some d.Metadata
  | .createService _ s => some s.Metadata
  | .updateService _ s => some s.Metadata
  | .createIngress _ i => some i.Metadata
  | .updateIngress _ i => some i.Metadata
  | _ => none

/-- The Workload sent by a create or update call. -/
def Op.sentDeployment : Op → Option deployment
  | .createDeployment _ d => some d
  | .updateDeployment _ d => some d
  | _ => none

/-- The Endpoint sent by a create or update call. -/
def Op.sentService : Op → Option service
  | .createService _ s => some s
  | .updateService _ s => some s
  | _ => none

/-- The reason of a notification. -/
def Op.reason : Op → Option String
  | .postEvent _ e => some e.Reason
  | _ => none

/-- The client handed back a response (`resp` is not nil). -/
def Reply.hasResponse : Reply → Bool
  | .invalidRequest _ => false
  | .failure _ => false
  | .failureWithResponse _ _ _ => true
  | .response _ _ => true

/-- Replace the value a call returns. -/
def Res.map {α β : Type} (f : α → β) : Res α → Res β
  | .ok a => .ok (f a)
  | .panic msg => .panic msg

/-- What a `get` function returns on a reply, for the decoding `view` of the
body (the part of `getDeployment`, `getService` and `getIngress` after the
exchange). -/
def fetched {α : Type} (view : Body → Except String α) : Reply → Except String (Option α)
  | .invalidRequest err => .error err
  | .failure err => .error err
  | .failureWithResponse err _ _ => .error err
  | .response status body =>
    if status = 404 then .ok none
    else if status = 200 then
      match view body with
      | .error err => .error err
      | .ok d => .ok (some d)
    else .error ("unexpected status: " ++ toString status)

/-- What a `deploy` function returns on a reply (the part of `deployDeployment`,
`deployService` and `deployIngress` after the exchange). -/
def deployed (method kind : String) (expectedStatus : Nat) : Reply → Option String
  | .invalidRequest err => some (wrapError (some err) "failed to create request")
  | .failure err => some (wrapError (some err) ("failed to " ++ method ++ " " ++ kind))
  | .failureWithResponse err _ _ =>
    some (wrapError (some err) ("failed to " ++ method ++ " " ++ kind))
  | .response status _ =>
    if status ≠ expectedStatus then
      some (wrapError none ("unexpected status: " ++ toString status))
    else none

/-- What differs between `ensureDeployment`, `ensureService` and
`ensureIngress`. -/
structure ChildKind (χ : Type) where
  tag : Kind
  kind : String
  desired : heap → χ
  getOp : String → String → String → Op
  createOp : String → χ → Op
  updateOp : String → χ → Op
  view : Body → Except String χ
  equal : χ → χ → Bool
  ident : χ → metadata
  withVersion : χ → String → χ
  wrapGet : String → String

/-- The common shape of the three `ensure` functions, written out on the
state; `ensureDeployment_eq`, `ensureService_eq` and `ensureIngress_eq` show
that each of them is an instance. -/
def ensureChild {σ χ : Type} (K : ChildKind χ) (W : World σ) (server : String) (h : heap) :
    Prog σ (Option String) := fun s =>
  let get := K.getOp server h.Metadata.Namespace h.Metadata.Name
  let s1 := (W.respond s get).2
  match fetched K.view (W.respond s get).1 with
  | .error err => ⟨.ok (some (K.wrapGet err)), s1, [get]⟩
  | .ok (some old) =>
    if K.equal old (K.desired h) then ⟨.ok none, s1, [get]⟩
    else
      let put := K.updateOp server (K.withVersion (K.desired h) (K.ident old).ResourceVersion)
      let s2 := (W.respond s1 put).2
      match deployed "PUT" K.kind 200 (W.respond s1 put).1 with
      | some err =>
        ⟨.ok (some (wrapError (some err) ("failed to update " ++ K.kind))), s2, [get, put]⟩
      | none =>
        let ev := sendEvent W server h (K.kind ++ "Updated") ("updated " ++ K.kind) s2
        ⟨ev.res.map (fun _ => none), ev.st, get :: put :: ev.ops⟩
  | .ok none =>
    let post := K.createOp server (K.desired h)
    let s2 := (W.respond s1 post).2
    match deployed "POST" K.kind 201 (W.respond s1 post).1 with
    | some err =>
      ⟨.ok (some (wrapError (some err) ("failed to create " ++ K.kind))), s2, [get, post]⟩
    | none =>
      let ev := sendEvent W server h (K.kind ++ "Created") ("created " ++ K.kind) s2
      ⟨ev.res.map (fun _ => none), ev.st, get :: post :: ev.ops⟩

/-- The Workload instance. -/
def deploymentKind : ChildKind deployment where
  tag := .workload
  kind := "deployment"
  desired := desiredDeployment
  getOp := Op.getDeployment
  createOp := Op.createDeployment
  updateOp := Op.updateDeployment
  view := Body.deployment
  equal := deploymentsEqual
  ident := deployment.Metadata
  withVersion := fun d v => { d with Metadata := { d.Metadata with ResourceVersion := v } }
  wrapGet := fun err => wrapError (some err) "failed to get deployment"

/-- The Endpoint instance. -/
def serviceKind : ChildKind service where
  tag := .endpoint
  kind := "service"
  desired := desiredService
  getOp := Op.getService
  createOp := Op.createService
  updateOp := Op.updateService
  view := Body.service
  equal := servicesEqual
  ident := service.Metadata
  withVersion := fun d v => { d with Metadata := { d.Metadata with ResourceVersion := v } }
  wrapGet := fun err => err

/-- The Route instance. -/
def ingressKind : ChildKind ingress where
  tag := .route
  kind := "ingress"
  desired := desiredIngress
  getOp := Op.getIngress
  createOp := Op.createIngress
  updateOp := Op.updateIngress
  view := Body.ingress
  equal := ingressesEqual
  ident := ingress.Metadata
  withVersion := fun d v => { d with Metadata := { d.Metadata with ResourceVersion := v } }
  wrapGet := fun err => err

/-- The facts about a child kind that the properties of `ensureChild` rest
on: which exchanges its operations are, that its equality sees the spec only
(so a child equals itself, with or without a version token), and that the
desired child is named after the source. -/
structure ChildKind.Sound {χ : Type} (K : ChildKind χ) : Prop where
  get_isGet : ∀ server ns name, (K.getOp server ns name).isGet = true
  get_child : ∀ server ns name, (K.getOp server ns name).child = some K.tag
  get_isCreate : ∀ server ns name, (K.getOp server ns name).isCreate = false
  get_isUpdate : ∀ server ns name, (K.getOp server ns name).isUpdate = false
  get_isEvent : ∀ server ns name, (K.getOp server ns name).isEvent = false
  create_child : ∀ server c, (K.createOp server c).child = some K.tag
  update_child : ∀ server c, (K.updateOp server c).child = some K.tag
  create_sent : ∀ server c, (K.createOp server c).sentMetadata = some (K.ident c)
  update_sent : ∀ server c, (K.updateOp server c).sentMetadata = some (K.ident c)
  equal_self : ∀ c, K.equal c c = true
  equal_withVersion : ∀ c v, K.equal (K.withVersion c v) c = true
  ident_withVersion : ∀ c v, K.ident (K.withVersion c v) = { K.ident c with ResourceVersion := v }
  ident_desired : ∀ h, K.ident (K.desired h) =
    { Name := h.Metadata.Name
      Namespace := h.Metadata.Namespace
      Labels := h.Metadata.Labels
      Annotations := h.Metadata.Annotations
      OwnerReferences := createOwnerReferences h }

/-! ## The JSON round trip of a child

What `json.Unmarshal` yields, into a fresh struct, from the `json.Marshal` of
a child, following the struct tags of the source.  A field tagged `omitempty`
is left out when it is an empty string, slice or map, and an absent field
decodes to the zero value: an empty non-nil slice or map under `omitempty`
comes back nil.  Without `omitempty` a nil slice or map is written `null` and
comes back nil, an empty one is written `[]` or `{}` and comes back empty.
Strings, numbers and booleans come back as they were. -/

/-- The round trip of a slice field tagged `omitempty`. -/
def omitEmptySlice {α : Type} : Slice α → Slice α
  | some [] => none
  | x => x

/-- The round trip of a map field tagged `omitempty`. -/
def omitEmptyMap : StringMap → StringMap
  | some m => if m = ∅ then none else some m
  | none => none

/-- The round trip of a `metadata`: every field is tagged `omitempty`. -/
def metadata.wire (m : metadata) : metadata :=
  { m with
    Labels := omitEmptyMap m.Labels
    Annotations := omitEmptyMap m.Annotations
    OwnerReferences := omitEmptySlice m.OwnerReferences }

/-- The round trip of a `container`: `command` is tagged `omitempty`. -/
def container.wire (c : container) : container :=
  { c with Command := omitEmptySlice c.Command }

/-- The round trip of a `podSpec`: `containers` is not tagged `omitempty`. -/
def podSpec.wire (p : podSpec) : podSpec :=
  { Containers := p.Containers.map (List.map container.wire) }

/-- The round trip of a `podTemplateSpec`. -/
def podTemplateSpec.wire (t : podTemplateSpec) : podTemplateSpec :=
  { Metadata := t.Metadata.wire, Spec := t.Spec.wire }

/-- The round trip of a `deploymentSpec`: `replicas` and the `matchLabels` of
the selector are not tagged `omitempty`. -/
def deploymentSpec.wire (d : deploymentSpec) : deploymentSpec :=
  { d with Template := d.Template.wire }

/-- The round trip of a `deployment`. -/
def deployment.wire (d : deployment) : deployment :=
  { Metadata := d.Metadata.wire, Spec := d.Spec.wire }

/-- The round trip of a `service`: no field of `serviceSpec` or `servicePort`
is tagged `omitempty`. -/
def service.wire (sv : service) : service :=
  { sv with Metadata := sv.Metadata.wire }

/-- The round trip of an `ingress`: no field under `ingressSpec` is tagged
`omitempty`. -/
def ingress.wire (i : ingress) : ingress :=
  { i with Metadata := i.Metadata.wire }

/-! ## Stores that read back what was written -/

/-- A create answered 201, or an update answered 200, is what the next fetch of
that child returns: the fetch decodes to the round trip `wire c` of the child
`c` that was sent. -/
def ReadBack {σ χ : Type} (K : ChildKind χ) (wire : χ → χ) (W : World σ) : Prop :=
  ∀ (s : σ) (server : String) (c : χ) (body : Body),
    ((W.respond s (K.createOp server c)).1 = .response 201 body →
      ∃ b, (W.respond (W.respond s (K.createOp server c)).2
              (K.getOp server (K.ident c).Namespace (K.ident c).Name)).1 = .response 200 b ∧
            K.view b = .ok (wire c)) ∧
    ((W.respond s (K.updateOp server c)).1 = .response 200 body →
      ∃ b, (W.respond (W.respond s (K.updateOp server c)).2
              (K.getOp server (K.ident c).Namespace (K.ident c).Name)).1 = .response 200 b ∧
            K.view b = .ok (wire c))

/-- A store that on fetch returns the representation last written and that
nothing else mutates: the answer to a fetch changes neither when the clock is
read nor on an exchange that is not a create or update of the same kind of
child, and a successful write is read back through the JSON round trip. -/
structure ReadsBackWrites {σ : Type} (W : World σ) : Prop where
  frame : ∀ (s : σ) (op g : Op), g.isGet = true →
    ((op.isCreate = false ∧ op.isUpdate = false) ∨ op.child ≠ g.child) →
    (W.respond (W.respond s op).2 g).1 = (W.respond s g).1
  clock : ∀ (s : σ) (g : Op), g.isGet = true →
    (W.respond (W.now s).2 g).1 = (W.respond s g).1
  workload : ReadBack deploymentKind deployment.wire W
  endpoint : ReadBack serviceKind service.wire W
  route : ReadBack ingressKind ingress.wire W

/-- The child is present in the store with the desired spec. -/
def Settled {σ χ : Type} (K : ChildKind χ) (W : World σ) (server : String) (h : heap)
    (s : σ) : Prop :=
  ∃ b old, (W.respond s (K.getOp server h.Metadata.Namespace h.Metadata.Name)).1
      = .response 200 b ∧ K.view b = .ok old ∧ K.equal old (K.desired h) = true

/-! ## Two concrete worlds -/

/-- A body that decodes into nothing. -/
def Body.unreadable : Body :=
  { heaps := .error "unexpected end of JSON input"
    deployment := .error "unexpected end of JSON input"
    service := .error "unexpected end of JSON input"
    ingress := .error "unexpected end of JSON input" }

/-- The state of an in-memory store: the children written so far, latest
first, the sources and the clock. -/
structure MemState where
  heaps : List heap := []
  deployments : List deployment := []
  services : List service := []
  ingresses : List ingress := []
  clock : Nat := 0

/-- Selection of a child by namespace and name. -/
def named (ns name : String) (m : metadata) : Bool :=
  decide (m.Namespace = ns) && decide (m.Name = name)

/-- An in-memory store: a fetch answers 200 with the latest representation
written under that namespace and name, or 404; a create answers 201, an update
200 and an event 201. -/
def memRespond (m : MemState) : Op → Reply × MemState
  | .listHeaps _ => (.response 200 { Body.unreadable with heaps := .ok m.heaps }, m)
  | .getDeployment _ ns name =>
    match m.deployments.find? (fun d => named ns name d.Metadata) with
    | some d => (.response 200 { Body.unreadable with deployment := .ok d }, m)
    | none => (.response 404 Body.unreadable, m)
  | .createDeployment _ d =>
    (.response 201 Body.unreadable, { m with deployments := d :: m.deployments })
  | .updateDeployment _ d =>
    (.response 200 Body.unreadable, { m with deployments := d :: m.deployments })
  | .getService _ ns name =>
    match m.services.find? (fun d => named ns name d.Metadata) with
    | some d => (.response 200 { Body.unreadable with service := .ok d }, m)
    | none => (.response 404 Body.unreadable, m)
  | .createService _ d =>
    (.response 201 Body.unreadable, { m with services := d :: m.services })
  | .updateService _ d =>
    (.response 200 Body.unreadable, { m with services := d :: m.services })
  | .getIngress _ ns name =>
    match m.ingresses.find? (fun d => named ns name d.Metadata) with
    | some d => (.response 200 { Body.unreadable with ingress := .ok d }, m)
    | none => (.response 404 Body.unreadable, m)
  | .createIngress _ d =>
    (.response 201 Body.unreadable, { m with ingresses := d :: m.ingresses })
  | .updateIngress _ d =>
    (.response 200 Body.unreadable, { m with ingresses := d :: m.ingresses })
  | .postEvent _ _ => (.response 201 Body.unreadable, m)

/-- The in-memory store with a clock that ticks at each reading. -/
def memWorld : World MemState where
  respond := memRespond
  now := fun m => (m.clock, { m with clock := m.clock + 1 })

/-- The source of Scenario A: image, port 80, no host, replicas left at 0. -/
def web : heap :=
  { Kind := "Heap"
    APIVersion := "akins.org/v1alpha1"
    Metadata := { Name := "web", Namespace := "default", UID := "u-1" }
    Spec := { Image := "nginx:1", Port := 80 } }

/-- A source with an image, a port and a host. -/
def site : heap :=
  { Kind := "Heap"
    APIVersion := "akins.org/v1alpha1"
    Metadata := { Name := "site", Namespace := "default", UID := "u-2" }
    Spec := { Image := "nginx:1", Port := 8080, Host := "site.example.org", Replicas := 3 } }

/-- The source of Scenario C: no image. -/
def api : heap :=
  { Kind := "Heap"
    APIVersion := "akins.org/v1alpha1"
    Metadata := { Name := "api", Namespace := "default", UID := "u-3" }
    Spec := { Image := "", Port := 80 } }

/-- A source with an image and a host but no port. -/
def job : heap :=
  { Kind := "Heap"
    APIVersion := "akins.org/v1alpha1"
    Metadata := { Name := "job", Namespace := "default", UID := "u-4" }
    Spec := { Image := "busybox", Host := "job.example.org" } }

/-- The body of a create or update as the store receives it: after the JSON
round trip. -/
def Op.onWire : Op → Op
  | .createDeployment server d => .createDeployment server d.wire
  | .updateDeployment server d => .updateDeployment server d.wire
  | .createService server sv => .createService server sv.wire
  | .updateService server sv => .updateService server sv.wire
  | .createIngress server i => .createIngress server i.wire
  | .updateIngress server i => .updateIngress server i.wire
  | op => op

/-- The in-memory store behind JSON: it keeps, and on fetch returns, exactly
what the JSON written decodes to. -/
def wireWorld : World MemState where
  respond := fun m op => memRespond m op.onWire
  now := fun m => (m.clock, { m with clock := m.clock + 1 })

/-- A source listed with `"command": []`: an image, port 80, no host, and a
command that is an empty, non-nil slice. -/
def idle : heap :=
  { Kind := "Heap"
    APIVersion := "akins.org/v1alpha1"
    Metadata := { Name := "idle", Namespace := "default", UID := "u-5" }
    Spec := { Image := "busybox", Command := some [], Port := 80 } }

/-- A store that answers the listing with the sources "web" and "api" and
cannot be reached afterwards: every other exchange fails without a response. -/
def lostWorld : World Unit where
  respond := fun _ op =>
    match op with
    | .listHeaps _ => (.response 200 { Body.unreadable with heaps := .ok [web, api] }, ())
    | _ => (.failure "connection refused", ())
  now := fun _ => (0, ())

/-- A state of the in-memory store holding the three children of "site" with
the desired specs under other identities: version tokens, an annotation, no
labels and no owner link. -/
def settledState : MemState :=
  { deployments := [{ Metadata := { Name := "site", Namespace := "default"
                                    ResourceVersion := "41"
                                    Annotations := some (Finmap.singleton "note" "kept") }
                      Spec := (desiredDeployment site).Spec }]
    services := [{ Metadata := { Name := "site", Namespace := "default"
                                 ResourceVersion := "42" }
                   Spec := (desiredService site).Spec }]
    ingresses := [{ Metadata := { Name := "site", Namespace := "default"
                                  ResourceVersion := "43", UID := "x-9" }
                    Spec := (desiredIngress site).Spec }] }

/-- A state of the in-memory store holding the three children of "site" with
other specs (one replica, port 80, another host) and version tokens. -/
def staleState : MemState :=
  { deployments := [{ Metadata := { Name := "site", Namespace := "default"
                                    ResourceVersion := "7" }
                      Spec := { (desiredDeployment site).Spec with Replicas := 1 } }]
    services := [{ Metadata := { Name := "site", Namespace := "default"
                                 ResourceVersion := "8" }
                   Spec := (desiredService { site with Spec := { site.Spec with Port := 80 } }).Spec }]
    ingresses := [{ Metadata := { Name := "site", Namespace := "default"
                                  ResourceVersion := "9" }
                    Spec := (desiredIngress
                      { site with Spec := { site.Spec with Host := "old.example.org" } }).Spec }] }

/-! ## Running the monad -/

section Run

variable {σ α β χ : Type}

@[simp] theorem pure_run (a : α) (s : σ) : (pure a : Prog σ α) s = ⟨.ok a, s, []⟩ := rfl

theorem bind_run (x : Prog σ α) (f : α → Prog σ β) (s : σ) :
    (x >>= f) s = match x s with
      | ⟨.ok a, s1, t1⟩ => ⟨(f a s1).res, (f a s1).st, t1 ++ (f a s1).ops⟩
      | ⟨.panic msg, s1, t1⟩ => ⟨.panic msg, s1, t1⟩ := rfl

@[simp] theorem call_run (W : World σ) (op : Op) (s : σ) :
    call W op s = ⟨.ok (W.respond s op).1, (W.respond s op).2, [op]⟩ := rfl

@[simp] theorem timeNow_run (W : World σ) (s : σ) :
    timeNow W s = ⟨.ok (W.now s).1, (W.now s).2, []⟩ := rfl

@[simp] theorem goPanic_run (msg : String) (s : σ) :
    (goPanic msg : Prog σ α) s = ⟨.panic msg, s, []⟩ := rfl

@[simp] theorem Res.map_ok (f : α → β) (a : α) : Res.map f (.ok a) = .ok (f a) := rfl

@[simp] theorem Res.map_panic (f : α → β) (m : String) :
    Res.map f (.panic m : Res α) = .panic m := rfl

theorem Res.map_eq_ok {f : α → β} {r : Res α} {b : β} (h : Res.map f r = .ok b) :
    ∃ a, r = .ok a := by
  cases r with
  | ok a => exact ⟨a, rfl⟩
  | panic m => simp at h

theorem seq_none_run (x : Prog σ Unit) (s : σ) :
    (x >>= fun _ => (pure none : Prog σ (Option String))) s =
      ⟨(x s).res.map (fun _ => none), (x s).st, (x s).ops⟩ := by
  simp only [bind_run]
  rcases x s with ⟨r, s1, t⟩
  cases r <;> simp

/-- The one exchange of `sendEvent`, and the panic exactly when no response
came back. -/
theorem sendEvent_run (W : World σ) (server : String) (h : heap) (reason message : String)
    (s : σ) :
    sendEvent W server h reason message s =
      ⟨if (W.respond (W.now s).2
              (Op.postEvent server (newEvent h reason message (W.now s).1))).1.hasResponse
        then .ok () else .panic "invalid memory address or nil pointer dereference",
       (W.respond (W.now s).2 (Op.postEvent server (newEvent h reason message (W.now s).1))).2,
       [Op.postEvent server (newEvent h reason message (W.now s).1)]⟩ := by
  simp only [sendEvent, bind_run, timeNow_run, call_run]
  cases (W.respond (W.now s).2
    (Op.postEvent server (newEvent h reason message (W.now s).1))).1 <;>
    simp [Reply.hasResponse]

theorem sendEvent_ops (W : World σ) (server : String) (h : heap) (reason message : String)
    (s : σ) :
    (sendEvent W server h reason message s).ops =
      [Op.postEvent server (newEvent h reason message (W.now s).1)] := by
  rw [sendEvent_run]

theorem getDeployment_run (W : World σ) (server ns name : String) (s : σ) :
    getDeployment W server ns name s =
      ⟨.ok (fetched Body.deployment (W.respond s (Op.getDeployment server ns name)).1),
       (W.respond s (Op.getDeployment server ns name)).2,
       [Op.getDeployment server ns name]⟩ := by
  simp only [getDeployment, bind_run, call_run]
  cases (W.respond s (Op.getDeployment server ns name)).1 with
  | response status body =>
    simp only [fetched]
    split_ifs <;> simp
    cases body.deployment <;> simp
  | _ => simp [fetched]

theorem getService_run (W : World σ) (server ns name : String) (s : σ) :
    getService W server ns name s =
      ⟨.ok (fetched Body.service (W.respond s (Op.getService server ns name)).1),
       (W.respond s (Op.getService server ns name)).2,
       [Op.getService server ns name]⟩ := by
  simp only [getService, bind_run, call_run]
  cases (W.respond s (Op.getService server ns name)).1 with
  | response status body =>
    simp only [fetched]
    split_ifs <;> simp
    cases body.service <;> simp
  | _ => simp [fetched]

theorem getIngress_run (W : World σ) (server ns name : String) (s : σ) :
    getIngress W server ns name s =
      ⟨.ok (fetched Body.ingress (W.respond s (Op.getIngress server ns name)).1),
       (W.respond s (Op.getIngress server ns name)).2,
       [Op.getIngress server ns name]⟩ := by
  simp only [getIngress, bind_run, call_run]
  cases (W.respond s (Op.getIngress server ns name)).1 with
  | response status body =>
    simp only [fetched]
    split_ifs <;> simp
    cases body.ingress <;> simp
  | _ => simp [fetched]

theorem deployDeployment_run (W : World σ) (server : String) (update : Bool) (n : Nat)
    (d : deployment) (s : σ) :
    deployDeployment W server update n d s =
      ⟨.ok (deployed (if update then "PUT" else "POST") "deployment" n
          (W.respond s
            (if update then Op.updateDeployment server d else Op.createDeployment server d)).1),
       (W.respond s
          (if update then Op.updateDeployment server d else Op.createDeployment server d)).2,
       [if update then Op.updateDeployment server d else Op.createDeployment server d]⟩ := by
  simp only [deployDeployment, bind_run, call_run]
  cases (W.respond s
    (if update then Op.updateDeployment server d else Op.createDeployment server d)).1 with
  | response status body =>
    simp only [deployed]
    split_ifs <;> simp
  | _ => simp [deployed, String.append_assoc]

theorem deployService_run (W : World σ) (server : String) (update : Bool) (n : Nat)
    (d : service) (s : σ) :
    deployService W server update n d s =
      ⟨.ok (deployed (if update then "PUT" else "POST") "service" n
          (W.respond s
            (if update then Op.updateService server d else Op.createService server d)).1),
       (W.respond s
          (if update then Op.updateService server d else Op.createService server d)).2,
       [if update then Op.updateService server d else Op.createService server d]⟩ := by
  simp only [deployService, bind_run, call_run]
  cases (W.respond s
    (if update then Op.updateService server d else Op.createService server d)).1 with
  | response status body =>
    simp only [deployed]
    split_ifs <;> simp
  | _ => simp [deployed, String.append_assoc]

theorem deployIngress_run (W : World σ) (server : String) (update : Bool) (n : Nat)
    (d : ingress) (s : σ) :
    deployIngress W server update n d s =
      ⟨.ok (deployed (if update then "PUT" else "POST") "ingress" n
          (W.respond s
            (if update then Op.updateIngress server d else Op.createIngress server d)).1),
       (W.respond s
          (if update then Op.updateIngress server d else Op.createIngress server d)).2,
       [if update then Op.updateIngress server d else Op.createIngress server d]⟩ := by
  simp only [deployIngress, bind_run, call_run]
  cases (W.respond s
    (if update then Op.updateIngress server d else Op.createIngress server d)).1 with
  | response status body =>
    simp only [deployed]
    split_ifs <;> simp
  | _ => simp [deployed, String.append_assoc]

/-- The function `ensureDeployment` is the common shape at the Workload kind. -/
theorem ensureDeployment_eq (W : World σ) (server : String) (h : heap) :
    ensureDeployment W server h = ensureChild deploymentKind W server h := by
  funext s
  simp only [ensureDeployment, ensureChild, bind_run, getDeployment_run, deploymentKind]
  cases fetched Body.deployment
      (W.respond s (Op.getDeployment server h.Metadata.Namespace h.Metadata.Name)).1 with
  | error err => simp
  | ok o =>
    cases o with
    | none =>
      simp only [bind_run, deployDeployment_run, if_false, Bool.false_eq_true]
      cases deployed "POST" "deployment" 201 (W.respond
        (W.respond s (Op.getDeployment server h.Metadata.Namespace h.Metadata.Name)).2
        (Op.createDeployment server (desiredDeployment h))).1 with
      | some err => simp
      | none => simp [seq_none_run]
    | some old =>
      simp only []
      split_ifs
      · simp
      · simp only [bind_run, deployDeployment_run, if_true]
        cases deployed "PUT" "deployment" 200 (W.respond
          (W.respond s (Op.getDeployment server h.Metadata.Namespace h.Metadata.Name)).2
          (Op.updateDeployment server _)).1 with
        | some err => simp
        | none => simp [seq_none_run]

/-- The function `ensureService` is the common shape at the Endpoint kind. -/
theorem ensureService_eq (W : World σ) (server : String) (h : heap) :
    ensureService W server h = ensureChild serviceKind W server h := by
  funext s
  simp only [ensureService, ensureChild, bind_run, getService_run, serviceKind]
  cases fetched Body.service
      (W.respond s (Op.getService server h.Metadata.Namespace h.Metadata.Name)).1 with
  | error err => simp
  | ok o =>
    cases o with
    | none =>
      simp only [bind_run, deployService_run, if_false, Bool.false_eq_true]
      cases deployed "POST" "service" 201 (W.respond
        (W.respond s (Op.getService server h.Metadata.Namespace h.Metadata.Name)).2
        (Op.createService server (desiredService h))).1 with
      | some err => simp
      | none => simp [seq_none_run]
    | some old =>
      simp only []
      split_ifs
      · simp
      · simp only [bind_run, deployService_run, if_true]
        cases deployed "PUT" "service" 200 (W.respond
          (W.respond s (Op.getService server h.Metadata.Namespace h.Metadata.Name)).2
          (Op.updateService server _)).1 with
        | some err => simp
        | none => simp [seq_none_run]

/-- The function `ensureIngress` is the common shape at the Route kind. -/
theorem ensureIngress_eq (W : World σ) (server : String) (h : heap) :
    ensureIngress W server h = ensureChild ingressKind W server h := by
  funext s
  simp only [ensureIngress, ensureChild, bind_run, getIngress_run, ingressKind]
  cases fetched Body.ingress
      (W.respond s (Op.getIngress server h.Metadata.Namespace h.Metadata.Name)).1 with
  | error err => simp
  | ok o =>
    cases o with
    | none =>
      simp only [bind_run, deployIngress_run, if_false, Bool.false_eq_true]
      cases deployed "POST" "ingress" 201 (W.respond
        (W.respond s (Op.getIngress server h.Metadata.Namespace h.Metadata.Name)).2
        (Op.createIngress server (desiredIngress h))).1 with
      | some err => simp
      | none => simp [seq_none_run]
    | some old =>
      simp only []
      split_ifs
      · simp
      · simp only [bind_run, deployIngress_run, if_true]
        cases deployed "PUT" "ingress" 200 (W.respond
          (W.respond s (Op.getIngress server h.Metadata.Namespace h.Metadata.Name)).2
          (Op.updateIngress server _)).1 with
        | some err => simp
        | none => simp [seq_none_run]

end Run

/-! ## The three kinds are sound -/

theorem deploymentKind_sound : deploymentKind.Sound := by
  constructor <;> intros <;> first | rfl | simp [deploymentKind, deploymentsEqual]

theorem serviceKind_sound : serviceKind.Sound := by
  constructor <;> intros <;> first | rfl | simp [serviceKind, servicesEqual]

theorem ingressKind_sound : ingressKind.Sound := by
  constructor <;> intros <;> first | rfl | simp [ingressKind, ingressesEqual]

/-! ## Properties of the common shape -/

section Ensure

variable {σ χ : Type} (K : ChildKind χ) (W : World σ) (server : String) (h : heap) (s : σ)

theorem fetched_eq_some {α : Type} {view : Body → Except String α} {r : Reply} {a : α}
    (hf : fetched view r = .ok (some a)) : ∃ b, r = .response 200 b ∧ view b = .ok a := by
  cases r with
  | response status body =>
    simp only [fetched] at hf
    split_ifs at hf with h1 h2
    · simp at hf
    · subst h2
      refine ⟨body, rfl, ?_⟩
      cases hv : view body with
      | error e => simp [hv] at hf
      | ok d =>
        simp only [hv, Except.ok.injEq, Option.some.injEq] at hf
        rw [hf]
  | _ => simp [fetched] at hf

theorem fetched_response_ok {α : Type} {view : Body → Except String α} {b : Body} {a : α}
    (hv : view b = .ok a) : fetched view (.response 200 b) = .ok (some a) := by
  simp [fetched, hv]

theorem deployed_eq_none {method kind : String} {n : Nat} {r : Reply}
    (hd : deployed method kind n r = none) : ∃ b, r = .response n b := by
  cases r with
  | response status body =>
    simp only [deployed] at hd
    split_ifs at hd with h1
    simp only [ne_eq, Decidable.not_not] at h1
    exact ⟨body, by rw [h1]⟩
  | _ => simp [deployed] at hd

theorem deployed_response (method kind : String) (n : Nat) (b : Body) :
    deployed method kind n (.response n b) = none := by
  simp [deployed]

/-- The fetch comes first. -/
theorem ensureChild_ops_head :
    ∃ rest, (ensureChild K W server h s).ops
      = K.getOp server h.Metadata.Namespace h.Metadata.Name :: rest := by
  simp only [ensureChild]
  split
  · exact ⟨_, rfl⟩
  · split_ifs
    · exact ⟨_, rfl⟩
    · split <;> exact ⟨_, rfl⟩
  · split <;> exact ⟨_, rfl⟩

/-- A failed fetch ends the step with that error and nothing else issued. -/
theorem ensureChild_fetch_failed {err : String}
    (hf : fetched K.view (W.respond s (K.getOp server h.Metadata.Namespace h.Metadata.Name)).1
      = .error err) :
    ensureChild K W server h s =
      ⟨.ok (some (K.wrapGet err)),
       (W.respond s (K.getOp server h.Metadata.Namespace h.Metadata.Name)).2,
       [K.getOp server h.Metadata.Namespace h.Metadata.Name]⟩ := by
  simp only [ensureChild, hf]

/-- A present child equal to the desired one ends the step in silence. -/
theorem ensureChild_equal {old : χ}
    (hf : fetched K.view (W.respond s (K.getOp server h.Metadata.Namespace h.Metadata.Name)).1
      = .ok (some old))
    (he : K.equal old (K.desired h) = true) :
    ensureChild K W server h s =
      ⟨.ok none,
       (W.respond s (K.getOp server h.Metadata.Namespace h.Metadata.Name)).2,
       [K.getOp server h.Metadata.Namespace h.Metadata.Name]⟩ := by
  simp only [ensureChild, hf, he, if_true]

/-- A present child that differs is updated with its own version token, and
the update is notified when it succeeds. -/
theorem ensureChild_differs {old : χ}
    (hf : fetched K.view (W.respond s (K.getOp server h.Metadata.Namespace h.Metadata.Name)).1
      = .ok (some old))
    (he : K.equal old (K.desired h) = false) :
    (ensureChild K W server h s).ops =
      [K.getOp server h.Metadata.Namespace h.Metadata.Name,
       K.updateOp server (K.withVersion (K.desired h) (K.ident old).ResourceVersion)] ++
      (if deployed "PUT" K.kind 200
            (W.respond (W.respond s (K.getOp server h.Metadata.Namespace h.Metadata.Name)).2
              (K.updateOp server
                (K.withVersion (K.desired h) (K.ident old).ResourceVersion))).1 = none
        then [Op.postEvent server (newEvent h (K.kind ++ "Updated") ("updated " ++ K.kind)
          (W.now (W.respond (W.respond s
            (K.getOp server h.Metadata.Namespace h.Metadata.Name)).2
              (K.updateOp server
                (K.withVersion (K.desired h) (K.ident old).ResourceVersion))).2).1)]
        else []) := by
  simp only [ensureChild, hf, he, Bool.false_eq_true, if_false]
  split
  · rename_i err hd
    simp [hd]
  · rename_i hd
    simp [hd, sendEvent_ops]

/-- Every exchange of the step is its fetch, a create of the desired child, an
update with the desired child carrying some version token, or a
notification about the source. -/
theorem ensureChild_ops_mem (op : Op) (hop : op ∈ (ensureChild K W server h s).ops) :
    op = K.getOp server h.Metadata.Namespace h.Metadata.Name ∨
    op = K.createOp server (K.desired h) ∨
    (∃ v, op = K.updateOp server (K.withVersion (K.desired h) v)) ∨
    (∃ reason message now, op = Op.postEvent server (newEvent h reason message now)) := by
  simp only [ensureChild] at hop
  split at hop
  · simp only [List.mem_singleton] at hop
    exact Or.inl hop
  · split_ifs at hop
    · simp only [List.mem_singleton] at hop
      exact Or.inl hop
    · split at hop
      · simp only [List.mem_cons, List.mem_singleton, List.not_mem_nil, or_false] at hop
        rcases hop with hop | hop
        · exact Or.inl hop
        · exact Or.inr (Or.inr (Or.inl ⟨_, hop⟩))
      · simp only [sendEvent_ops, List.mem_cons, List.mem_singleton, List.not_mem_nil,
          or_false] at hop
        rcases hop with hop | hop | hop
        · exact Or.inl hop
        · exact Or.inr (Or.inr (Or.inl ⟨_, hop⟩))
        · exact Or.inr (Or.inr (Or.inr ⟨_, _, _, hop⟩))
  · split at hop
    · simp only [List.mem_cons, List.mem_singleton, List.not_mem_nil, or_false] at hop
      rcases hop with hop | hop
      · exact Or.inl hop
      · exact Or.inr (Or.inl hop)
    · simp only [sendEvent_ops, List.mem_cons, List.mem_singleton, List.not_mem_nil,
        or_false] at hop
      rcases hop with hop | hop | hop
      · exact Or.inl hop
      · exact Or.inr (Or.inl hop)
      · exact Or.inr (Or.inr (Or.inr ⟨_, _, _, hop⟩))

/-- A step addresses its own kind of child only. -/
theorem ensureChild_child (hK : K.Sound) (op : Op)
    (hop : op ∈ (ensureChild K W server h s).ops) :
    op.child = some K.tag ∨ op.child = none := by
  rcases ensureChild_ops_mem K W server h s op hop with e | e | ⟨v, e⟩ | ⟨r, m, n, e⟩
  · exact Or.inl (e ▸ hK.get_child _ _ _)
  · exact Or.inl (e ▸ hK.create_child _ _)
  · exact Or.inl (e ▸ hK.update_child _ _)
  · exact Or.inr (e ▸ rfl)

/-- Every child sent by a step is named after the source, in its namespace,
and owned by it alone. -/
theorem ensureChild_sent (hK : K.Sound) (op : Op)
    (hop : op ∈ (ensureChild K W server h s).ops) (m : metadata)
    (hm : op.sentMetadata = some m) :
    m.Name = h.Metadata.Name ∧ m.Namespace = h.Metadata.Namespace ∧
    m.Labels = h.Metadata.Labels ∧ m.Annotations = h.Metadata.Annotations ∧
    m.OwnerReferences = createOwnerReferences h := by
  rcases ensureChild_ops_mem K W server h s op hop with e | e | ⟨v, e⟩ | ⟨r, msg, n, e⟩
  · have h1 := hK.get_isCreate server h.Metadata.Namespace h.Metadata.Name
    have h2 := hK.get_isUpdate server h.Metadata.Namespace h.Metadata.Name
    rw [← e] at h1 h2
    cases op <;> simp_all [Op.isCreate, Op.isUpdate, Op.sentMetadata]
  · rw [e, hK.create_sent, hK.ident_desired] at hm
    cases hm
    simp
  · rw [e, hK.update_sent, hK.ident_withVersion, hK.ident_desired] at hm
    cases hm
    simp
  · rw [e] at hm
    simp [Op.sentMetadata] at hm

end Ensure

/-! ## The loop body, case by case -/

section Loop

variable {σ : Type} (W : World σ) (server : String) (h : heap) (s : σ)

/-- Without an image the body is one notification. -/
theorem loopBody_missing (himg : h.Spec.Image = "") :
    loopBody W server h s = sendEvent W server h "missingImage" "no image specified" s := by
  simp [loopBody, himg]

/-- A panic in the Workload step ends the body there. -/
theorem loopBody_workload_panic (himg : h.Spec.Image ≠ "") {msg : String}
    (hd : (ensureDeployment W server h s).res = .panic msg) :
    loopBody W server h s =
      ⟨.panic msg, (ensureDeployment W server h s).st, (ensureDeployment W server h s).ops⟩ := by
  simp only [loopBody, himg, if_false, bind_run]
  rcases hx : ensureDeployment W server h s with ⟨r, s1, t⟩
  rw [hx] at hd
  simp only at hd
  subst hd
  rfl

/-- An error of the Workload step is notified and ends the body. -/
theorem loopBody_workload_failed (himg : h.Spec.Image ≠ "") {err : String}
    (hd : (ensureDeployment W server h s).res = .ok (some err)) :
    loopBody W server h s =
      ⟨(sendEvent W server h "deploymentFailed" err (ensureDeployment W server h s).st).res,
       (sendEvent W server h "deploymentFailed" err (ensureDeployment W server h s).st).st,
       (ensureDeployment W server h s).ops ++
         (sendEvent W server h "deploymentFailed" err (ensureDeployment W server h s).st).ops⟩ := by
  simp only [loopBody, himg, if_false, bind_run]
  rcases hx : ensureDeployment W server h s with ⟨r, s1, t⟩
  rw [hx] at hd
  simp only at hd
  subst hd
  rfl

/-- With port 0 a successful Workload step is the whole body. -/
theorem loopBody_no_port (himg : h.Spec.Image ≠ "") (hport : h.Spec.Port = 0)
    (hd : (ensureDeployment W server h s).res = .ok none) :
    loopBody W server h s =
      ⟨.ok (), (ensureDeployment W server h s).st, (ensureDeployment W server h s).ops⟩ := by
  simp only [loopBody, himg, if_false, bind_run]
  rcases hx : ensureDeployment W server h s with ⟨r, s1, t⟩
  rw [hx] at hd
  simp only at hd
  subst hd
  simp [hport]


/-- A panic in the Endpoint step ends the body there. -/
theorem loopBody_endpoint_panic (himg : h.Spec.Image ≠ "") (hport : h.Spec.Port ≠ 0)
    (hd : (ensureDeployment W server h s).res = .ok none) {msg : String}
    (hs : (ensureService W server h (ensureDeployment W server h s).st).res = .panic msg) :
    loopBody W server h s =
      ⟨.panic msg, (ensureService W server h (ensureDeployment W server h s).st).st,
       (ensureDeployment W server h s).ops ++
         (ensureService W server h (ensureDeployment W server h s).st).ops⟩ := by
  simp only [loopBody, himg, if_false, bind_run]
  rcases hx : ensureDeployment W server h s with ⟨r, s1, t⟩
  rw [hx] at hd hs
  simp only at hd hs
  subst hd
  simp only [hport, ne_eq, not_false_eq_true, if_true, bind_run]
  rcases hy : ensureService W server h s1 with ⟨r2, s2, t2⟩
  rw [hy] at hs
  simp only at hs
  subst hs
  rfl

/-- An error of the Endpoint step is notified and ends the body. -/
theorem loopBody_endpoint_failed (himg : h.Spec.Image ≠ "") (hport : h.Spec.Port ≠ 0)
    (hd : (ensureDeployment W server h s).res = .ok none) {err : String}
    (hs : (ensureService W server h (ensureDeployment W server h s).st).res = .ok (some err)) :
    loopBody W server h s =
      ⟨(sendEvent W server h "serviceFailed" err
          (ensureService W server h (ensureDeployment W server h s).st).st).res,
       (sendEvent W server h "serviceFailed" err
          (ensureService W server h (ensureDeployment W server h s).st).st).st,
       (ensureDeployment W server h s).ops ++
         ((ensureService W server h (ensureDeployment W server h s).st).ops ++
           (sendEvent W server h "serviceFailed" err
             (ensureService W server h (ensureDeployment W server h s).st).st).ops)⟩ := by
  simp only [loopBody, himg, if_false, bind_run]
  rcases hx : ensureDeployment W server h s with ⟨r, s1, t⟩
  rw [hx] at hd hs
  simp only at hd hs
  subst hd
  simp only [hport, ne_eq, not_false_eq_true, if_true, bind_run]
  rcases hy : ensureService W server h s1 with ⟨r2, s2, t2⟩
  rw [hy] at hs
  simp only at hs
  subst hs
  rfl

/-- With a port and no host, successful Workload and Endpoint steps are the
whole body. -/
theorem loopBody_no_host (himg : h.Spec.Image ≠ "") (hport : h.Spec.Port ≠ 0)
    (hhost : h.Spec.Host = "")
    (hd : (ensureDeployment W server h s).res = .ok none)
    (hs : (ensureService W server h (ensureDeployment W server h s).st).res = .ok none) :
    loopBody W server h s =
      ⟨.ok (), (ensureService W server h (ensureDeployment W server h s).st).st,
       (ensureDeployment W server h s).ops ++
         (ensureService W server h (ensureDeployment W server h s).st).ops⟩ := by
  simp only [loopBody, himg, if_false, bind_run]
  rcases hx : ensureDeployment W server h s with ⟨r, s1, t⟩
  rw [hx] at hd hs
  simp only at hd hs
  subst hd
  simp only [hport, ne_eq, not_false_eq_true, if_true, bind_run]
  rcases hy : ensureService W server h s1 with ⟨r2, s2, t2⟩
  rw [hy] at hs
  simp only at hs
  subst hs
  simp [hhost]

/-- With a port and a host, the Route step follows successful Workload and
Endpoint steps; its error is notified. -/
theorem loopBody_route (himg : h.Spec.Image ≠ "") (hport : h.Spec.Port ≠ 0)
    (hhost : h.Spec.Host ≠ "")
    (hd : (ensureDeployment W server h s).res = .ok none)
    (hs : (ensureService W server h (ensureDeployment W server h s).st).res = .ok none) :
    loopBody W server h s =
      match (ensureIngress W server h
          (ensureService W server h (ensureDeployment W server h s).st).st).res with
      | .panic msg =>
        ⟨.panic msg,
         (ensureIngress W server h
            (ensureService W server h (ensureDeployment W server h s).st).st).st,
         (ensureDeployment W server h s).ops ++
           ((ensureService W server h (ensureDeployment W server h s).st).ops ++
             (ensureIngress W server h
               (ensureService W server h (ensureDeployment W server h s).st).st).ops)⟩
      | .ok (some err) =>
        ⟨(sendEvent W server h "ingressFailed" err (ensureIngress W server h
            (ensureService W server h (ensureDeployment W server h s).st).st).st).res,
         (sendEvent W server h "ingressFailed" err (ensureIngress W server h
            (ensureService W server h (ensureDeployment W server h s).st).st).st).st,
         (ensureDeployment W server h s).ops ++
           ((ensureService W server h (ensureDeployment W server h s).st).ops ++
             ((ensureIngress W server h
               (ensureService W server h (ensureDeployment W server h s).st).st).ops ++
              (sendEvent W server h "ingressFailed" err (ensureIngress W server h
                (ensureService W server h (ensureDeployment W server h s).st).st).st).ops))⟩
      | .ok none =>
        ⟨.ok (),
         (ensureIngress W server h
            (ensureService W server h (ensureDeployment W server h s).st).st).st,
         (ensureDeployment W server h s).ops ++
           ((ensureService W server h (ensureDeployment W server h s).st).ops ++
             (ensureIngress W server h
               (ensureService W server h (ensureDeployment W server h s).st).st).ops)⟩ := by
  simp only [loopBody, himg, if_false, bind_run]
  rcases hx : ensureDeployment W server h s with ⟨r, s1, t⟩
  rw [hx] at hd hs
  simp only at hd hs
  subst hd
  simp only [hport, ne_eq, not_false_eq_true, if_true, bind_run]
  rcases hy : ensureService W server h s1 with ⟨r2, s2, t2⟩
  rw [hy] at hs
  simp only at hs
  subst hs
  simp only [hhost, ne_eq, not_false_eq_true, if_true, bind_run]
  rcases hz : ensureIngress W server h s2 with ⟨r3, s3, t3⟩
  cases r3 with
  | panic m => rfl
  | ok e =>
    cases e with
    | none => simp
    | some err => rfl

/-- The range over a non-empty list: the body on the head, then, unless it
panicked, the range over the tail. -/
theorem loopRange_cons (hs : List heap) :
    loopRange W server (h :: hs) s =
      match (loopBody W server h s).res with
      | .ok _ =>
        ⟨(loopRange W server hs (loopBody W server h s).st).res,
         (loopRange W server hs (loopBody W server h s).st).st,
         (loopBody W server h s).ops ++ (loopRange W server hs (loopBody W server h s).st).ops⟩
      | .panic msg => ⟨.panic msg, (loopBody W server h s).st, (loopBody W server h s).ops⟩ := by
  simp only [loopRange, bind_run]
  rcases loopBody W server h s with ⟨r, s1, t⟩
  cases r <;> rfl

theorem loopRange_nil : loopRange W server [] s = ⟨.ok (), s, []⟩ := rfl

/-- The range over one source issues what the body issues. -/
theorem loopRange_single_ops :
    (loopRange W server [h] s).ops = (loopBody W server h s).ops := by
  rw [loopRange_cons]
  rcases loopBody W server h s with ⟨r, s1, t⟩
  cases r <;> simp [loopRange_nil]

/-- A pass whose listing succeeds is the listing followed by the range over
the sources listed. -/
theorem loop_listed (hs : List heap) (hl : (listHeaps W server s).res = .ok (.ok hs)) :
    loop W server s =
      ⟨(loopRange W server hs (listHeaps W server s).st).res,
       (loopRange W server hs (listHeaps W server s).st).st,
       (listHeaps W server s).ops ++ (loopRange W server hs (listHeaps W server s).st).ops⟩ := by
  simp only [loop, bind_run]
  rcases hx : listHeaps W server s with ⟨r, s1, t⟩
  rw [hx] at hl
  simp only at hl
  subst hl
  rfl

/-- A pass whose listing fails issues the listing and nothing else. -/
theorem loop_not_listed (err : String) (hl : (listHeaps W server s).res = .ok (.error err)) :
    loop W server s = ⟨.ok (), (listHeaps W server s).st, (listHeaps W server s).ops⟩ := by
  simp only [loop, bind_run]
  rcases hx : listHeaps W server s with ⟨r, s1, t⟩
  rw [hx] at hl
  simp only at hl
  subst hl
  simp

/-- An update goes to the URL its fetch went to. -/
theorem update_url (v : String) :
    (Op.updateDeployment server
      { desiredDeployment h with
        Metadata := { (desiredDeployment h).Metadata with ResourceVersion := v } }).url =
      (Op.getDeployment server h.Metadata.Namespace h.Metadata.Name).url ∧
    (Op.updateService server
      { desiredService h with
        Metadata := { (desiredService h).Metadata with ResourceVersion := v } }).url =
      (Op.getService server h.Metadata.Namespace h.Metadata.Name).url ∧
    (Op.updateIngress server
      { desiredIngress h with
        Metadata := { (desiredIngress h).Metadata with ResourceVersion := v } }).url =
      (Op.getIngress server h.Metadata.Namespace h.Metadata.Name).url :=
  ⟨rfl, rfl, rfl⟩

end Loop

/-! ## The gates of the loop -/

/-- C2, the missing-image gate: in every world, one pass of the loop over a
source whose image is empty, whatever its port, host and replicas, issues
exactly one exchange, the notification with reason "missingImage"; no
exchange of the pass addresses a Workload, an Endpoint or a Route. -/
theorem missing_image_gate {σ : Type} (W : World σ) (server : String) (h : heap) (s : σ)
    (himg : h.Spec.Image = "") :
    (loopRange W server [h] s).ops =
      [Op.postEvent server (newEvent h "missingImage" "no image specified" (W.now s).1)] ∧
    (∀ op ∈ (loopRange W server [h] s).ops,
      op.child = none ∧ op.isEvent = true ∧ op.reason = some "missingImage") := by
  have hops : (loopRange W server [h] s).ops =
      [Op.postEvent server (newEvent h "missingImage" "no image specified" (W.now s).1)] := by
    rw [loopRange_single_ops, loopBody_missing W server h s himg, sendEvent_ops]
  refine ⟨hops, ?_⟩
  intro op hop
  rw [hops, List.mem_singleton] at hop
  subst hop
  exact ⟨rfl, rfl, rfl⟩

/-- The source of Scenario C on the in-memory store: one notification and
nothing else. -/
theorem missing_image_gate_witness :
    api.Spec.Image = "" ∧
    (loopRange memWorld "srv" [api] {}).ops =
      [Op.postEvent "srv" (newEvent api "missingImage" "no image specified" 0)] :=
  ⟨rfl, (missing_image_gate memWorld "srv" api {} rfl).1⟩

/-- With port 0 every exchange of the body is one of the Workload step or a
notification. -/
theorem loopBody_no_port_ops {σ : Type} (W : World σ) (server : String) (h : heap) (s : σ)
    (hport : h.Spec.Port = 0) (op : Op) (hop : op ∈ (loopBody W server h s).ops) :
    op ∈ (ensureDeployment W server h s).ops ∨ op.isEvent = true := by
  by_cases himg : h.Spec.Image = ""
  · rw [loopBody_missing W server h s himg, sendEvent_ops, List.mem_singleton] at hop
    exact Or.inr (hop ▸ rfl)
  · cases hd : (ensureDeployment W server h s).res with
    | panic msg =>
      rw [loopBody_workload_panic W server h s himg hd] at hop
      exact Or.inl hop
    | ok e =>
      cases e with
      | none =>
        rw [loopBody_no_port W server h s himg hport hd] at hop
        exact Or.inl hop
      | some err =>
        rw [loopBody_workload_failed W server h s himg hd] at hop
        simp only [sendEvent_ops, List.mem_append, List.mem_singleton] at hop
        rcases hop with hop | hop
        · exact Or.inl hop
        · exact Or.inr (hop ▸ rfl)

/-- C3, the port gate, for a source with an image.  (1) With port 0 no
exchange of the body addresses an Endpoint or a Route, whatever the host.
(2) With a port and an empty host, when the Workload step and then the
Endpoint step return without error, the body ends normally, its exchanges
are those of the Workload step followed by those of the Endpoint step, both
children are fetched, and no exchange addresses a Route. -/
theorem port_gate {σ : Type} (W : World σ) (server : String) (h : heap) (s : σ)
    (himg : h.Spec.Image ≠ "") :
    (h.Spec.Port = 0 →
      ∀ op ∈ (loopBody W server h s).ops,
        op.child ≠ some Kind.endpoint ∧ op.child ≠ some Kind.route) ∧
    (h.Spec.Port ≠ 0 → h.Spec.Host = "" →
      (ensureDeployment W server h s).res = .ok none →
      (ensureService W server h (ensureDeployment W server h s).st).res = .ok none →
        (loopBody W server h s).res = .ok () ∧
        (loopBody W server h s).ops =
          (ensureDeployment W server h s).ops ++
            (ensureService W server h (ensureDeployment W server h s).st).ops ∧
        Op.getDeployment server h.Metadata.Namespace h.Metadata.Name
          ∈ (loopBody W server h s).ops ∧
        Op.getService server h.Metadata.Namespace h.Metadata.Name
          ∈ (loopBody W server h s).ops ∧
        ∀ op ∈ (loopBody W server h s).ops, op.child ≠ some Kind.route) := by
  constructor
  · intro hport op hop
    rcases loopBody_no_port_ops W server h s hport op hop with hd | he
    · rw [ensureDeployment_eq] at hd
      rcases ensureChild_child deploymentKind W server h s deploymentKind_sound op hd with c | c
        <;> rw [c] <;> simp [deploymentKind]
    · cases op <;> simp_all [Op.isEvent, Op.child]
  · intro hport hhost hd hs
    rw [loopBody_no_host W server h s himg hport hhost hd hs]
    refine ⟨rfl, rfl, ?_, ?_, ?_⟩
    · obtain ⟨rest, hr⟩ := ensureChild_ops_head deploymentKind W server h s
      simp only [ensureDeployment_eq, hr]
      simp [deploymentKind]
    · obtain ⟨rest, hr⟩ := ensureChild_ops_head serviceKind W server h
        (ensureDeployment W server h s).st
      simp only [ensureService_eq, hr]
      simp [serviceKind]
    · intro op hop
      simp only [List.mem_append] at hop
      rcases hop with hop | hop
      · rw [ensureDeployment_eq] at hop
        rcases ensureChild_child deploymentKind W server h s deploymentKind_sound op hop
          with c | c <;> rw [c] <;> simp [deploymentKind]
      · rw [ensureService_eq] at hop
        rcases ensureChild_child serviceKind W server h _ serviceKind_sound op hop
          with c | c <;> rw [c] <;> simp [serviceKind]

/-- On the in-memory store: the source with a host but no port has its
Workload fetch outside the Endpoint and Route kinds, and the source of
Scenario A (port 80, no host) gets its Workload and its Endpoint. -/
theorem port_gate_witness :
    (job.Spec.Image ≠ "" ∧ job.Spec.Port = 0 ∧
      (Op.getDeployment "srv" "default" "job").child ≠ some Kind.endpoint ∧
      (Op.getDeployment "srv" "default" "job").child ≠ some Kind.route) ∧
    (web.Spec.Image ≠ "" ∧ web.Spec.Port ≠ 0 ∧ web.Spec.Host = "" ∧
      (loopBody memWorld "srv" web {}).res = .ok () ∧
      Op.getService "srv" "default" "web" ∈ (loopBody memWorld "srv" web {}).ops) :=
  ⟨⟨by decide, rfl,
      (port_gate memWorld "srv" job {} (by decide)).1 rfl
        (Op.getDeployment "srv" "default" "job") (by decide)⟩,
   ⟨by decide, by decide, rfl,
      ((port_gate memWorld "srv" web {} (by decide)).2 (by decide) rfl (by decide)
        (by decide)).1,
      ((port_gate memWorld "srv" web {} (by decide)).2 (by decide) rfl (by decide)
        (by decide)).2.2.2.1⟩⟩

/-! ## What is sent -/

/-- C7, the ownership invariant: in every world and for every source, each
child representation sent by a create or update call of the Workload, Endpoint
or Route step has the name and the namespace of the source, and its owner
links are exactly one link, carrying the api-version, kind, name and unique id
of the source with the controller flag set. -/
theorem ownership_invariant {σ : Type} (W : World σ) (server : String) (h : heap) (s : σ)
    (op : Op) (m : metadata)
    (hop : op ∈ (ensureDeployment W server h s).ops ∨ op ∈ (ensureService W server h s).ops ∨
      op ∈ (ensureIngress W server h s).ops)
    (hm : op.sentMetadata = some m) :
    m.Name = h.Metadata.Name ∧ m.Namespace = h.Metadata.Namespace ∧
    m.OwnerReferences = some [{ APIVersion := h.APIVersion
                                Kind := h.Kind
                                Name := h.Metadata.Name
                                UID := h.Metadata.UID
                                Controller := true }] := by
  rcases hop with hop | hop | hop
  · rw [ensureDeployment_eq] at hop
    have := ensureChild_sent deploymentKind W server h s deploymentKind_sound op hop m hm
    exact ⟨this.1, this.2.1, this.2.2.2.2⟩
  · rw [ensureService_eq] at hop
    have := ensureChild_sent serviceKind W server h s serviceKind_sound op hop m hm
    exact ⟨this.1, this.2.1, this.2.2.2.2⟩
  · rw [ensureIngress_eq] at hop
    have := ensureChild_sent ingressKind W server h s ingressKind_sound op hop m hm
    exact ⟨this.1, this.2.1, this.2.2.2.2⟩

/-- The Workload created for the source of Scenario A on the empty in-memory
store is named "web" in "default" and owned by that source. -/
theorem ownership_invariant_witness :
    Op.createDeployment "srv" (desiredDeployment web)
      ∈ (ensureDeployment memWorld "srv" web {}).ops ∧
    (desiredDeployment web).Metadata.Name = "web" ∧
    (desiredDeployment web).Metadata.Namespace = "default" ∧
    (desiredDeployment web).Metadata.OwnerReferences =
      some [{ APIVersion := "akins.org/v1alpha1"
              Kind := "Heap"
              Name := "web"
              UID := "u-1"
              Controller := true }] :=
  ⟨by decide,
   ownership_invariant memWorld "srv" web {} (Op.createDeployment "srv" (desiredDeployment web))
     (desiredDeployment web).Metadata (Or.inl (by decide)) rfl⟩

/-- C8, the Workload builder: for every source the desired Workload spec has
replica count `max 1 replicas`, one container, named after the source, with
the image and the command of the source, and selector match-labels and
pod-template labels both the one-entry map from "heap" to the name of the
source, which is also the selector of the desired Endpoint; and in every
world each Workload sent by the Workload step carries that spec. -/
theorem workload_builder (h : heap) :
    (desiredDeployment h).Spec.Replicas = max 1 h.Spec.Replicas ∧
    (desiredDeployment h).Spec.Template.Spec.Containers =
      some [{ Name := h.Metadata.Name, Image := h.Spec.Image, Command := h.Spec.Command }] ∧
    (desiredDeployment h).Spec.Selector.MatchLabels
      = some (Finmap.singleton "heap" h.Metadata.Name) ∧
    (desiredDeployment h).Spec.Template.Metadata.Labels
      = some (Finmap.singleton "heap" h.Metadata.Name) ∧
    (desiredService h).Spec.Selector = (desiredDeployment h).Spec.Selector.MatchLabels ∧
    (∀ {σ : Type} (W : World σ) (server : String) (s : σ) (op : Op) (d : deployment),
      op ∈ (ensureDeployment W server h s).ops → op.sentDeployment = some d →
        d.Spec = (desiredDeployment h).Spec) := by
  refine ⟨?_, rfl, rfl, rfl, rfl, ?_⟩
  · simp only [desiredDeployment]
    split_ifs with h0
    · simp [h0]
    · exact (Nat.max_eq_right (Nat.one_le_iff_ne_zero.mpr h0)).symm
  · intro σ W server s op d hop hd
    rw [ensureDeployment_eq] at hop
    rcases ensureChild_ops_mem deploymentKind W server h s op hop
      with e | e | ⟨v, e⟩ | ⟨r, msg, n, e⟩
    · rw [e] at hd
      simp [deploymentKind, Op.sentDeployment] at hd
    · rw [e] at hd
      simp only [deploymentKind, Op.sentDeployment, Option.some.injEq] at hd
      rw [← hd]
    · rw [e] at hd
      simp only [deploymentKind, Op.sentDeployment, Option.some.injEq] at hd
      rw [← hd]
    · rw [e] at hd
      simp [Op.sentDeployment] at hd

/-- Scenario A and an update: the Workload built for "web" (replicas left at
0) has one replica and one container "web" running "nginx:1", and the Workload
sent to replace the stale one of "site" carries the desired spec. -/
theorem workload_builder_witness :
    (desiredDeployment web).Spec.Replicas = 1 ∧
    (desiredDeployment web).Spec.Template.Spec.Containers =
      some [{ Name := "web", Image := "nginx:1", Command := none }] ∧
    Op.updateDeployment "srv"
        { desiredDeployment site with
          Metadata := { (desiredDeployment site).Metadata with ResourceVersion := "7" } }
      ∈ (ensureDeployment memWorld "srv" site staleState).ops ∧
    ({ desiredDeployment site with
        Metadata := { (desiredDeployment site).Metadata with ResourceVersion := "7" } }
      : deployment).Spec.Replicas = 3 :=
  ⟨(workload_builder web).1, (workload_builder web).2.1, by decide,
   ((workload_builder site).2.2.2.2.2 memWorld "srv" staleState
     (Op.updateDeployment "srv"
        { desiredDeployment site with
          Metadata := { (desiredDeployment site).Metadata with ResourceVersion := "7" } })
     { desiredDeployment site with
        Metadata := { (desiredDeployment site).Metadata with ResourceVersion := "7" } }
     (by decide) rfl) ▸ rfl⟩

/-- C9 as stated fails: the only network-port entry of the Endpoint sent for
the source "web" (port 80) is named "heap", not "web". -/
theorem endpoint_port_name_counterexample :
    web.Spec.Port ≠ 0 ∧ web.Metadata.Name = "web" ∧
    (ensureService memWorld "srv" web {}).ops =
      [Op.getService "srv" "default" "web",
       Op.createService "srv" (desiredService web),
       Op.postEvent "srv" (newEvent web "serviceCreated" "created service" 0)] ∧
    (desiredService web).Spec.Ports =
      some [{ Name := "heap", Protocol := "TCP", Port := 80, TargetPort := 80 }] ∧
    (desiredService web).Spec.Ports ≠
      some [{ Name := web.Metadata.Name, Protocol := "TCP", Port := 80, TargetPort := 80 }] := by
  refine ⟨by decide, rfl, by decide, rfl, by decide⟩

/-- C9 amended, the Endpoint builder: for every source (so for every source
with a port) the desired Endpoint spec has exactly one network-port entry,
named by the fixed string "heap", which is the port reference of the backend
of the desired Route, with listen port and target port both the port of the
source, protocol "TCP" and exposure type "ClusterIP"; and in every world each
Endpoint sent by the Endpoint step carries that spec. -/
theorem endpoint_builder (h : heap) :
    (desiredService h).Spec.Ports =
      some [{ Name := "heap", Protocol := "TCP", Port := h.Spec.Port
              TargetPort := h.Spec.Port }] ∧
    (desiredService h).Spec.Type_ = "ClusterIP" ∧
    (desiredIngress h).Spec.Rules =
      some [{ Host := h.Spec.Host
              HTTP := { Paths := some [{ Path := "/"
                                         Backend := { ServiceName := h.Metadata.Name
                                                      ServicePort := "heap" } }] } }] ∧
    (∀ {σ : Type} (W : World σ) (server : String) (s : σ) (op : Op) (sv : service),
      op ∈ (ensureService W server h s).ops → op.sentService = some sv →
        sv.Spec = (desiredService h).Spec) := by
  refine ⟨rfl, rfl, rfl, ?_⟩
  intro σ W server s op sv hop hd
  rw [ensureService_eq] at hop
  rcases ensureChild_ops_mem serviceKind W server h s op hop
    with e | e | ⟨v, e⟩ | ⟨r, msg, n, e⟩
  · rw [e] at hd
    simp [serviceKind, Op.sentService] at hd
  · rw [e] at hd
    simp only [serviceKind, Op.sentService, Option.some.injEq] at hd
    rw [← hd]
  · rw [e] at hd
    simp only [serviceKind, Op.sentService, Option.some.injEq] at hd
    rw [← hd]
  · rw [e] at hd
    simp [Op.sentService] at hd

/-- Scenario A and an update: the Endpoint built for "web" forwards port 80 to
port 80 under the port name "heap", and the Endpoint sent to replace the stale
one of "site" carries the desired spec. -/
theorem endpoint_builder_witness :
    (desiredService web).Spec.Ports =
      some [{ Name := "heap", Protocol := "TCP", Port := 80, TargetPort := 80 }] ∧
    Op.updateService "srv"
        { desiredService site with
          Metadata := { (desiredService site).Metadata with ResourceVersion := "8" } }
      ∈ (ensureService memWorld "srv" site staleState).ops ∧
    ({ desiredService site with
        Metadata := { (desiredService site).Metadata with ResourceVersion := "8" } }
      : service).Spec.Type_ = "ClusterIP" :=
  ⟨(endpoint_builder web).1, by decide,
   ((endpoint_builder site).2.2.2 memWorld "srv" staleState
     (Op.updateService "srv"
        { desiredService site with
          Metadata := { (desiredService site).Metadata with ResourceVersion := "8" } })
     { desiredService site with
        Metadata := { (desiredService site).Metadata with ResourceVersion := "8" } }
     (by decide) rfl) ▸ rfl⟩

/-! ## Equal or different: the decision of a step -/

section Decision

variable {σ : Type} (W : World σ) (server : String) (h : heap) (s : σ)

theorem getDeployment_res {ns name : String} {r : Except String (Option deployment)}
    (hg : (getDeployment W server ns name s).res = .ok r) :
    fetched Body.deployment (W.respond s (Op.getDeployment server ns name)).1 = r := by
  rw [getDeployment_run] at hg
  exact Res.ok.inj hg

theorem getService_res {ns name : String} {r : Except String (Option service)}
    (hg : (getService W server ns name s).res = .ok r) :
    fetched Body.service (W.respond s (Op.getService server ns name)).1 = r := by
  rw [getService_run] at hg
  exact Res.ok.inj hg

theorem getIngress_res {ns name : String} {r : Except String (Option ingress)}
    (hg : (getIngress W server ns name s).res = .ok r) :
    fetched Body.ingress (W.respond s (Op.getIngress server ns name)).1 = r := by
  rw [getIngress_run] at hg
  exact Res.ok.inj hg

end Decision

/-- C5, metadata-insensitive equality: in every world and for every source,
when the fetch of a step returns a present child whose spec equals the
desired spec, whatever its version token, annotations and other identity
fields, the step returns without error having issued its fetch and nothing
else: no update, no create, no notification.  The three equality functions
depend on the `Spec` fields only. -/
theorem metadata_insensitive_equality {σ : Type} (W : World σ) (server : String) (h : heap)
    (s : σ) :
    (∀ old : deployment,
      (getDeployment W server h.Metadata.Namespace h.Metadata.Name s).res = .ok (.ok (some old)) →
      old.Spec = (desiredDeployment h).Spec →
        (ensureDeployment W server h s).res = .ok none ∧
        (ensureDeployment W server h s).ops =
          [Op.getDeployment server h.Metadata.Namespace h.Metadata.Name]) ∧
    (∀ old : service,
      (getService W server h.Metadata.Namespace h.Metadata.Name s).res = .ok (.ok (some old)) →
      old.Spec = (desiredService h).Spec →
        (ensureService W server h s).res = .ok none ∧
        (ensureService W server h s).ops =
          [Op.getService server h.Metadata.Namespace h.Metadata.Name]) ∧
    (∀ old : ingress,
      (getIngress W server h.Metadata.Namespace h.Metadata.Name s).res = .ok (.ok (some old)) →
      old.Spec = (desiredIngress h).Spec →
        (ensureIngress W server h s).res = .ok none ∧
        (ensureIngress W server h s).ops =
          [Op.getIngress server h.Metadata.Namespace h.Metadata.Name]) ∧
    (∀ a a' b b' : deployment, a.Spec = a'.Spec → b.Spec = b'.Spec →
      deploymentsEqual a b = deploymentsEqual a' b') ∧
    (∀ a a' b b' : service, a.Spec = a'.Spec → b.Spec = b'.Spec →
      servicesEqual a b = servicesEqual a' b') ∧
    (∀ a a' b b' : ingress, a.Spec = a'.Spec → b.Spec = b'.Spec →
      ingressesEqual a b = ingressesEqual a' b') := by
  refine ⟨?_, ?_, ?_, ?_, ?_, ?_⟩
  · intro old hg he
    have hf := getDeployment_res W server s hg
    have heq : deploymentKind.equal old (deploymentKind.desired h) = true := by
      simp [deploymentKind, deploymentsEqual, he]
    rw [ensureDeployment_eq, ensureChild_equal deploymentKind W server h s hf heq]
    exact ⟨rfl, rfl⟩
  · intro old hg he
    have hf := getService_res W server s hg
    have heq : serviceKind.equal old (serviceKind.desired h) = true := by
      simp [serviceKind, servicesEqual, he]
    rw [ensureService_eq, ensureChild_equal serviceKind W server h s hf heq]
    exact ⟨rfl, rfl⟩
  · intro old hg he
    have hf := getIngress_res W server s hg
    have heq : ingressKind.equal old (ingressKind.desired h) = true := by
      simp [ingressKind, ingressesEqual, he]
    rw [ensureIngress_eq, ensureChild_equal ingressKind W server h s hf heq]
    exact ⟨rfl, rfl⟩
  · intro a a' b b' ha hb
    simp [deploymentsEqual, ha, hb]
  · intro a a' b b' ha hb
    simp [servicesEqual, ha, hb]
  · intro a a' b b' ha hb
    simp [ingressesEqual, ha, hb]

/-- The three children of "site", stored with the desired specs under other
version tokens and annotations, are left alone. -/
theorem metadata_insensitive_equality_witness :
    ((ensureDeployment memWorld "srv" site settledState).res = .ok none ∧
      (ensureDeployment memWorld "srv" site settledState).ops =
        [Op.getDeployment "srv" "default" "site"]) ∧
    ((ensureService memWorld "srv" site settledState).res = .ok none ∧
      (ensureService memWorld "srv" site settledState).ops =
        [Op.getService "srv" "default" "site"]) ∧
    ((ensureIngress memWorld "srv" site settledState).res = .ok none ∧
      (ensureIngress memWorld "srv" site settledState).ops =
        [Op.getIngress "srv" "default" "site"]) :=
  ⟨(metadata_insensitive_equality memWorld "srv" site settledState).1
      { Metadata := { Name := "site", Namespace := "default", ResourceVersion := "41"
                      Annotations := some (Finmap.singleton "note" "kept") }
        Spec := (desiredDeployment site).Spec } rfl rfl,
   (metadata_insensitive_equality memWorld "srv" site settledState).2.1
      { Metadata := { Name := "site", Namespace := "default", ResourceVersion := "42" }
        Spec := (desiredService site).Spec } rfl rfl,
   (metadata_insensitive_equality memWorld "srv" site settledState).2.2.1
      { Metadata := { Name := "site", Namespace := "default", ResourceVersion := "43"
                      UID := "x-9" }
        Spec := (desiredIngress site).Spec } rfl rfl⟩

/-- C6, version carry-forward: in every world and for every source, when the
fetch of a step returns a present child whose spec differs from the desired
spec, the step issues its fetch, then one update whose body is the desired
child with the version token of the child just fetched, and then, exactly
when that update succeeds, one notification with reason "deploymentUpdated",
"serviceUpdated" or "ingressUpdated"; nothing else is issued. -/
theorem version_carry_forward {σ : Type} (W : World σ) (server : String) (h : heap) (s : σ) :
    (∀ old : deployment,
      (getDeployment W server h.Metadata.Namespace h.Metadata.Name s).res = .ok (.ok (some old)) →
      old.Spec ≠ (desiredDeployment h).Spec →
        (ensureDeployment W server h s).ops =
          [Op.getDeployment server h.Metadata.Namespace h.Metadata.Name,
           Op.updateDeployment server
            { desiredDeployment h with
              Metadata := { (desiredDeployment h).Metadata with
                ResourceVersion := old.Metadata.ResourceVersion } }] ++
          (if (deployDeployment W server true 200
                { desiredDeployment h with
                  Metadata := { (desiredDeployment h).Metadata with
                    ResourceVersion := old.Metadata.ResourceVersion } }
                (getDeployment W server h.Metadata.Namespace h.Metadata.Name s).st).res = .ok none
            then [Op.postEvent server (newEvent h "deploymentUpdated" "updated deployment"
              (W.now (deployDeployment W server true 200
                { desiredDeployment h with
                  Metadata := { (desiredDeployment h).Metadata with
                    ResourceVersion := old.Metadata.ResourceVersion } }
                (getDeployment W server h.Metadata.Namespace h.Metadata.Name s).st).st).1)]
            else [])) ∧
    (∀ old : service,
      (getService W server h.Metadata.Namespace h.Metadata.Name s).res = .ok (.ok (some old)) →
      old.Spec ≠ (desiredService h).Spec →
        (ensureService W server h s).ops =
          [Op.getService server h.Metadata.Namespace h.Metadata.Name,
           Op.updateService server
            { desiredService h with
              Metadata := { (desiredService h).Metadata with
                ResourceVersion := old.Metadata.ResourceVersion } }] ++
          (if (deployService W server true 200
                { desiredService h with
                  Metadata := { (desiredService h).Metadata with
                    ResourceVersion := old.Metadata.ResourceVersion } }
                (getService W server h.Metadata.Namespace h.Metadata.Name s).st).res = .ok none
            then [Op.postEvent server (newEvent h "serviceUpdated" "updated service"
              (W.now (deployService W server true 200
                { desiredService h with
                  Metadata := { (desiredService h).Metadata with
                    ResourceVersion := old.Metadata.ResourceVersion } }
                (getService W server h.Metadata.Namespace h.Metadata.Name s).st).st).1)]
            else [])) ∧
    (∀ old : ingress,
      (getIngress W server h.Metadata.Namespace h.Metadata.Name s).res = .ok (.ok (some old)) →
      old.Spec ≠ (desiredIngress h).Spec →
        (ensureIngress W server h s).ops =
          [Op.getIngress server h.Metadata.Namespace h.Metadata.Name,
           Op.updateIngress server
            { desiredIngress h with
              Metadata := { (desiredIngress h).Metadata with
                ResourceVersion := old.Metadata.ResourceVersion } }] ++
          (if (deployIngress W server true 200
                { desiredIngress h with
                  Metadata := { (desiredIngress h).Metadata with
                    ResourceVersion := old.Metadata.ResourceVersion } }
                (getIngress W server h.Metadata.Namespace h.Metadata.Name s).st).res = .ok none
            then [Op.postEvent server (newEvent h "ingressUpdated" "updated ingress"
              (W.now (deployIngress W server true 200
                { desiredIngress h with
                  Metadata := { (desiredIngress h).Metadata with
                    ResourceVersion := old.Metadata.ResourceVersion } }
                (getIngress W server h.Metadata.Namespace h.Metadata.Name s).st).st).1)]
            else [])) := by
  refine ⟨?_, ?_, ?_⟩
  · intro old hg he
    have hf := getDeployment_res W server s hg
    have hne : deploymentKind.equal old (deploymentKind.desired h) = false := by
      simp [deploymentKind, deploymentsEqual, he]
    rw [ensureDeployment_eq, ensureChild_differs deploymentKind W server h s hf hne]
    simp [deploymentKind, deployDeployment_run, getDeployment_run]
  · intro old hg he
    have hf := getService_res W server s hg
    have hne : serviceKind.equal old (serviceKind.desired h) = false := by
      simp [serviceKind, servicesEqual, he]
    rw [ensureService_eq, ensureChild_differs serviceKind W server h s hf hne]
    simp [serviceKind, deployService_run, getService_run]
  · intro old hg he
    have hf := getIngress_res W server s hg
    have hne : ingressKind.equal old (ingressKind.desired h) = false := by
      simp [ingressKind, ingressesEqual, he]
    rw [ensureIngress_eq, ensureChild_differs ingressKind W server h s hf hne]
    simp [ingressKind, deployIngress_run, getIngress_run]

/-- The three children of "site", stored with other specs under the version
tokens "7", "8" and "9", are each updated once with that token and the update
is notified. -/
theorem version_carry_forward_witness :
    (ensureDeployment memWorld "srv" site staleState).ops =
      [Op.getDeployment "srv" "default" "site",
       Op.updateDeployment "srv"
        { desiredDeployment site with
          Metadata := { (desiredDeployment site).Metadata with ResourceVersion := "7" } },
       Op.postEvent "srv" (newEvent site "deploymentUpdated" "updated deployment" 0)] ∧
    (ensureService memWorld "srv" site staleState).ops =
      [Op.getService "srv" "default" "site",
       Op.updateService "srv"
        { desiredService site with
          Metadata := { (desiredService site).Metadata with ResourceVersion := "8" } },
       Op.postEvent "srv" (newEvent site "serviceUpdated" "updated service" 0)] ∧
    (ensureIngress memWorld "srv" site staleState).ops =
      [Op.getIngress "srv" "default" "site",
       Op.updateIngress "srv"
        { desiredIngress site with
          Metadata := { (desiredIngress site).Metadata with ResourceVersion := "9" } },
       Op.postEvent "srv" (newEvent site "ingressUpdated" "updated ingress" 0)] :=
  ⟨(version_carry_forward memWorld "srv" site staleState).1
      { Metadata := { Name := "site", Namespace := "default", ResourceVersion := "7" }
        Spec := { (desiredDeployment site).Spec with Replicas := 1 } } rfl (by decide),
   (version_carry_forward memWorld "srv" site staleState).2.1
      { Metadata := { Name := "site", Namespace := "default", ResourceVersion := "8" }
        Spec := (desiredService { site with Spec := { site.Spec with Port := 80 } }).Spec }
      rfl (by decide),
   (version_carry_forward memWorld "srv" site staleState).2.2
      { Metadata := { Name := "site", Namespace := "default", ResourceVersion := "9" }
        Spec := (desiredIngress
          { site with Spec := { site.Spec with Host := "old.example.org" } }).Spec }
      rfl (by decide)⟩

/-! ## Notifications that get no response -/

/-- The function `sendEvent` returns exactly when the client hands back a
response. -/
theorem sendEvent_returns_iff {σ : Type} (W : World σ) (server : String) (h : heap)
    (reason message : String) (s : σ) :
    (sendEvent W server h reason message s).res = .ok () ↔
      (W.respond (W.now s).2
        (Op.postEvent server (newEvent h reason message (W.now s).1))).1.hasResponse = true := by
  rw [sendEvent_run]
  by_cases hr : (W.respond (W.now s).2
      (Op.postEvent server (newEvent h reason message (W.now s).1))).1.hasResponse = true
  · simp [hr]
  · simp [hr]

/-- When the Workload step returns an error and the post of its notification
gets a response, the range goes on with the later sources: it issues the
exchanges of the Workload step, the one "deploymentFailed" notification and
then those of the range over the tail. -/
theorem workload_failure_isolated {σ : Type} (W : World σ) (server : String) (h : heap)
    (rest : List heap) (s : σ) (himg : h.Spec.Image ≠ "") {err : String}
    (hd : (ensureDeployment W server h s).res = .ok (some err))
    (hev : (W.respond (W.now (ensureDeployment W server h s).st).2
      (Op.postEvent server (newEvent h "deploymentFailed" err
        (W.now (ensureDeployment W server h s).st).1))).1.hasResponse = true) :
    (loopRange W server (h :: rest) s).res =
      (loopRange W server rest
        (sendEvent W server h "deploymentFailed" err (ensureDeployment W server h s).st).st).res ∧
    (loopRange W server (h :: rest) s).ops =
      (ensureDeployment W server h s).ops ++
        [Op.postEvent server (newEvent h "deploymentFailed" err
          (W.now (ensureDeployment W server h s).st).1)] ++
        (loopRange W server rest
          (sendEvent W server h "deploymentFailed" err
            (ensureDeployment W server h s).st).st).ops := by
  have hres := (sendEvent_returns_iff W server h "deploymentFailed" err
    (ensureDeployment W server h s).st).mpr hev
  rw [loopRange_cons, loopBody_workload_failed W server h s himg hd]
  simp only [hres, sendEvent_ops]
  simp

/-- C10 fails on the code: when the post of a notification ends without a
response (here the store is out of reach), `sendEvent` does not return to its
caller; it panics on the nil response, after the one post. -/
theorem sendEvent_panics_without_response :
    (sendEvent lostWorld "srv" api "missingImage" "no image specified" ()).res =
      .panic "invalid memory address or nil pointer dereference" ∧
    (sendEvent lostWorld "srv" api "missingImage" "no image specified" ()).ops =
      [Op.postEvent "srv" (newEvent api "missingImage" "no image specified" 0)] := by
  exact ⟨by decide, by decide⟩

/-- C1 fails on the code: the store answers the listing with "web" and "api"
and is out of reach afterwards.  The Workload step of "web" returns an error,
its "deploymentFailed" notification is posted, and the pass panics there:
the later source "api" is never processed (it would get a "missingImage"
notification). -/
theorem loop_stops_at_lost_notification :
    web.Spec.Image ≠ "" ∧
    (ensureDeployment lostWorld "srv" web ()).res =
      .ok (some "failed to get deployment connection refused") ∧
    (loop lostWorld "srv" ()).res =
      .panic "invalid memory address or nil pointer dereference" ∧
    (loop lostWorld "srv" ()).ops =
      [Op.listHeaps "srv",
       Op.getDeployment "srv" "default" "web",
       Op.postEvent "srv"
        (newEvent web "deploymentFailed" "failed to get deployment connection refused" 0)] := by
  exact ⟨by decide, by decide, by decide, by decide⟩

/-! ## Convergence over a store that reads back what was written -/

section Converge

variable {σ χ χ' : Type} {W : World σ} {K : ChildKind χ} {K' : ChildKind χ'}
  {server : String} {h : heap}

/-- Being settled depends on the answer to the fetch only. -/
theorem settled_of_reply {s t : σ}
    (hr : (W.respond t (K.getOp server h.Metadata.Namespace h.Metadata.Name)).1 =
      (W.respond s (K.getOp server h.Metadata.Namespace h.Metadata.Name)).1)
    (hs : Settled K W server h s) : Settled K W server h t := by
  obtain ⟨b, old, h1, h2, h3⟩ := hs
  exact ⟨b, old, hr.trans h1, h2, h3⟩

/-- A notification does not change what a fetch returns. -/
theorem sendEvent_frame (law : ReadsBackWrites W) (reason message : String) (s : σ) (g : Op)
    (hg : g.isGet = true) :
    (W.respond (sendEvent W server h reason message s).st g).1 = (W.respond s g).1 := by
  rw [sendEvent_run]
  simp only
  rw [law.frame (W.now s).2 (Op.postEvent server (newEvent h reason message (W.now s).1)) g hg
    (Or.inl ⟨rfl, rfl⟩), law.clock s g hg]

/-- A step does not change what a fetch of another kind returns. -/
theorem ensureChild_frame (law : ReadsBackWrites W) (hK : K.Sound) (s : σ) (g : Op)
    (hg : g.isGet = true) (hk : g.child ≠ some K.tag) :
    (W.respond (ensureChild K W server h s).st g).1 = (W.respond s g).1 := by
  have hget : (W.respond (W.respond s
      (K.getOp server h.Metadata.Namespace h.Metadata.Name)).2 g).1 = (W.respond s g).1 :=
    law.frame s _ g hg (Or.inl ⟨hK.get_isCreate _ _ _, hK.get_isUpdate _ _ _⟩)
  have hput : ∀ (t : σ) (c : χ), (W.respond (W.respond t (K.updateOp server c)).2 g).1
      = (W.respond t g).1 := fun t c =>
    law.frame t _ g hg (Or.inr (by rw [hK.update_child]; exact fun e => hk e.symm))
  have hpost : ∀ (t : σ) (c : χ), (W.respond (W.respond t (K.createOp server c)).2 g).1
      = (W.respond t g).1 := fun t c =>
    law.frame t _ g hg (Or.inr (by rw [hK.create_child]; exact fun e => hk e.symm))
  simp only [ensureChild]
  split
  · exact hget
  · split_ifs
    · exact hget
    · split
      · simp only
        rw [hput, hget]
      · simp only
        rw [sendEvent_frame law _ _ _ g hg, hput, hget]
  · split
    · simp only
      rw [hpost, hget]
    · simp only
      rw [sendEvent_frame law _ _ _ g hg, hpost, hget]

/-- A step leaves the children of the other kinds settled. -/
theorem settled_ensureChild_other (law : ReadsBackWrites W) (hK : K.Sound) (hK' : K'.Sound)
    (hne : K'.tag ≠ K.tag) {s : σ} (hs : Settled K' W server h s) :
    Settled K' W server h (ensureChild K W server h s).st :=
  settled_of_reply
    (ensureChild_frame law hK s _ (hK'.get_isGet _ _ _)
      (by rw [hK'.get_child]; exact fun e => hne (Option.some.inj e)))
    hs

/-- A fetch leaves every child settled. -/
theorem settled_after_get (law : ReadsBackWrites W) (hK : K.Sound) (hK' : K'.Sound) {s : σ}
    (hs : Settled K' W server h s) :
    Settled K' W server h
      (W.respond s (K.getOp server h.Metadata.Namespace h.Metadata.Name)).2 :=
  settled_of_reply
    (law.frame s _ _ (hK'.get_isGet _ _ _)
      (Or.inl ⟨hK.get_isCreate _ _ _, hK.get_isUpdate _ _ _⟩))
    hs

/-- On a settled child the step is its fetch and nothing else. -/
theorem ensureChild_settled_run {s : σ} (hs : Settled K W server h s) :
    ensureChild K W server h s =
      ⟨.ok none, (W.respond s (K.getOp server h.Metadata.Namespace h.Metadata.Name)).2,
       [K.getOp server h.Metadata.Namespace h.Metadata.Name]⟩ := by
  obtain ⟨b, old, h1, h2, h3⟩ := hs
  have hf : fetched K.view
      (W.respond s (K.getOp server h.Metadata.Namespace h.Metadata.Name)).1 = .ok (some old) := by
    rw [h1]
    exact fetched_response_ok h2
  exact ensureChild_equal K W server h s hf h3

/-- A step that returns without error leaves its child settled, provided the
desired child still equals the desired one after the JSON round trip. -/
theorem ensureChild_settles (law : ReadsBackWrites W) (hK : K.Sound) {wire : χ → χ}
    (hrb : ReadBack K wire W)
    (hw0 : K.equal (wire (K.desired h)) (K.desired h) = true)
    (hw : ∀ v, K.equal (wire (K.withVersion (K.desired h) v)) (K.desired h) = true)
    {s : σ} (hres : (ensureChild K W server h s).res = .ok none) :
    Settled K W server h (ensureChild K W server h s).st := by
  have hgetop := hK.get_isGet server h.Metadata.Namespace h.Metadata.Name
  have hget : ∀ t : σ, (W.respond (W.respond t
      (K.getOp server h.Metadata.Namespace h.Metadata.Name)).2
        (K.getOp server h.Metadata.Namespace h.Metadata.Name)).1 =
      (W.respond t (K.getOp server h.Metadata.Namespace h.Metadata.Name)).1 := fun t =>
    law.frame t _ _ hgetop (Or.inl ⟨hK.get_isCreate _ _ _, hK.get_isUpdate _ _ _⟩)
  simp only [ensureChild] at hres ⊢
  split at hres
  · simp at hres
  · rename_i old hf
    split_ifs at hres ⊢ with he
    · obtain ⟨b, hb, hv⟩ := fetched_eq_some hf
      exact ⟨b, old, (hget s).trans hb, hv, he⟩
    · split at hres
      · simp at hres
      · rename_i hd
        simp only [hd]
        obtain ⟨body, hbody⟩ := deployed_eq_none hd
        obtain ⟨b, hb, hv⟩ := (hrb _ server _ body).2 hbody
        rw [hK.ident_withVersion, hK.ident_desired] at hb
        refine ⟨b, _, ?_, hv, hw _⟩
        rw [sendEvent_frame law _ _ _ _ hgetop]
        exact hb
  · rename_i hf
    split at hres
    · simp at hres
    · rename_i hd
      simp only [hd]
      obtain ⟨body, hbody⟩ := deployed_eq_none hd
      obtain ⟨b, hb, hv⟩ := (hrb _ server _ body).1 hbody
      rw [hK.ident_desired] at hb
      refine ⟨b, _, ?_, hv, hw0⟩
      rw [sendEvent_frame law _ _ _ _ hgetop]
      exact hb

end Converge

/-! ## The desired children through the JSON round trip -/

theorem singleton_ne_empty (k v : String) :
    Finmap.singleton k v ≠ (∅ : Finmap (fun _ : String => String)) := by
  intro e
  have hm : k ∈ Finmap.singleton k v :=
    (@Finmap.mem_singleton String (fun _ => String) k k v).mpr rfl
  rw [e] at hm
  exact Finmap.not_mem_empty hm

theorem omitEmptyMap_singleton (k v : String) :
    omitEmptyMap (some (Finmap.singleton k v)) = some (Finmap.singleton k v) := by
  simp [omitEmptyMap, singleton_ne_empty]

theorem omitEmptySlice_of_ne {α : Type} {x : Slice α} (hx : x ≠ some []) :
    omitEmptySlice x = x := by
  cases x with
  | none => rfl
  | some l =>
    cases l with
    | nil => exact absurd rfl hx
    | cons a l => rfl

/-- The desired Workload spec survives the round trip exactly when the
command of the source is not an empty non-nil slice. -/
theorem desiredDeployment_wire (h : heap) :
    (desiredDeployment h).Spec.wire = (desiredDeployment h).Spec ↔ h.Spec.Command ≠ some [] := by
  constructor
  · intro e hc
    have := congrArg (fun sp : deploymentSpec => sp.Template.Spec.Containers) e
    simp [desiredDeployment, deploymentSpec.wire, podTemplateSpec.wire, podSpec.wire,
      container.wire, omitEmptySlice, hc] at this
  · intro hc
    simp [desiredDeployment, deploymentSpec.wire, podTemplateSpec.wire, podSpec.wire,
      container.wire, metadata.wire, omitEmptySlice_of_ne hc, omitEmptyMap, omitEmptySlice,
      singleton_ne_empty]

section Cycle

variable {σ : Type} {W : World σ} {server : String} {h : heap}

/-- After a body that ends normally without a failure notification, every
child the source asks for is settled, when the command of the source is not an
empty non-nil slice. -/
theorem loopBody_settles (law : ReadsBackWrites W) (s : σ) (himg : h.Spec.Image ≠ "")
    (hcmd : h.Spec.Command ≠ some [])
    (hres : (loopBody W server h s).res = .ok ())
    (hok : ∀ op ∈ (loopBody W server h s).ops,
      op.reason ≠ some "deploymentFailed" ∧ op.reason ≠ some "serviceFailed" ∧
        op.reason ≠ some "ingressFailed") :
    Settled deploymentKind W server h (loopBody W server h s).st ∧
    (h.Spec.Port ≠ 0 → Settled serviceKind W server h (loopBody W server h s).st) ∧
    (h.Spec.Port ≠ 0 → h.Spec.Host ≠ "" →
      Settled ingressKind W server h (loopBody W server h s).st) := by
  cases hd : (ensureDeployment W server h s).res with
  | panic msg =>
    rw [loopBody_workload_panic W server h s himg hd] at hres
    simp at hres
  | ok e =>
    cases e with
    | some err =>
      exfalso
      have := (hok (Op.postEvent server (newEvent h "deploymentFailed" err
        (W.now (ensureDeployment W server h s).st).1)) (by
          rw [loopBody_workload_failed W server h s himg hd, sendEvent_ops]
          simp)).1
      exact this rfl
    | none =>
      have hD : Settled deploymentKind W server h (ensureDeployment W server h s).st := by
        rw [ensureDeployment_eq] at hd ⊢
        have hw : (desiredDeployment h).Spec.wire = (desiredDeployment h).Spec :=
          (desiredDeployment_wire h).mpr hcmd
        exact ensureChild_settles law deploymentKind_sound law.workload
          (by simp [deploymentKind, deploymentsEqual, deployment.wire, hw])
          (fun v => by simp [deploymentKind, deploymentsEqual, deployment.wire, hw]) hd
      by_cases hport : h.Spec.Port = 0
      · rw [loopBody_no_port W server h s himg hport hd]
        exact ⟨hD, fun c => absurd hport c, fun c => absurd hport c⟩
      · cases hs : (ensureService W server h (ensureDeployment W server h s).st).res with
        | panic msg =>
          rw [loopBody_endpoint_panic W server h s himg hport hd hs] at hres
          simp at hres
        | ok e =>
          cases e with
          | some err =>
            exfalso
            have := (hok (Op.postEvent server (newEvent h "serviceFailed" err
              (W.now (ensureService W server h (ensureDeployment W server h s).st).st).1)) (by
                rw [loopBody_endpoint_failed W server h s himg hport hd hs, sendEvent_ops]
                simp)).2.1
            exact this rfl
          | none =>
            have hS : Settled serviceKind W server h
                (ensureService W server h (ensureDeployment W server h s).st).st := by
              rw [ensureService_eq] at hs ⊢
              exact ensureChild_settles law serviceKind_sound law.endpoint
                (by simp [serviceKind, servicesEqual, service.wire])
                (fun v => by simp [serviceKind, servicesEqual, service.wire]) hs
            have hD2 : Settled deploymentKind W server h
                (ensureService W server h (ensureDeployment W server h s).st).st := by
              rw [ensureService_eq]
              exact settled_ensureChild_other law serviceKind_sound deploymentKind_sound
                (by decide) hD
            by_cases hhost : h.Spec.Host = ""
            · rw [loopBody_no_host W server h s himg hport hhost hd hs]
              exact ⟨hD2, fun _ => hS, fun _ c => absurd hhost c⟩
            · have hbody := loopBody_route W server h s himg hport hhost hd hs
              cases hi : (ensureIngress W server h
                  (ensureService W server h (ensureDeployment W server h s).st).st).res with
              | panic msg =>
                rw [hi] at hbody
                rw [hbody] at hres
                simp at hres
              | ok e =>
                cases e with
                | some err =>
                  exfalso
                  rw [hi] at hbody
                  simp only at hbody
                  have := (hok (Op.postEvent server (newEvent h "ingressFailed" err
                    (W.now (ensureIngress W server h (ensureService W server h
                      (ensureDeployment W server h s).st).st).st).1)) (by
                      rw [hbody, sendEvent_ops]
                      simp)).2.2
                  exact this rfl
                | none =>
                  rw [hi] at hbody
                  rw [hbody]
                  simp only
                  refine ⟨?_, fun _ => ?_, fun _ _ => ?_⟩
                  · rw [ensureIngress_eq]
                    exact settled_ensureChild_other law ingressKind_sound deploymentKind_sound
                      (by decide) hD2
                  · rw [ensureIngress_eq]
                    exact settled_ensureChild_other law ingressKind_sound serviceKind_sound
                      (by decide) hS
                  · rw [ensureIngress_eq] at hi ⊢
                    exact ensureChild_settles law ingressKind_sound law.route
                      (by simp [ingressKind, ingressesEqual, ingress.wire])
                      (fun v => by simp [ingressKind, ingressesEqual, ingress.wire]) hi

/-- Over settled children the body ends normally and only fetches. -/
theorem loopBody_settled (law : ReadsBackWrites W) (t : σ) (himg : h.Spec.Image ≠ "")
    (hD : Settled deploymentKind W server h t)
    (hS : h.Spec.Port ≠ 0 → Settled serviceKind W server h t)
    (hI : h.Spec.Port ≠ 0 → h.Spec.Host ≠ "" → Settled ingressKind W server h t) :
    (loopBody W server h t).res = .ok () ∧
    ∀ op ∈ (loopBody W server h t).ops, op.isGet = true := by
  have hd := ensureChild_settled_run hD
  rw [← ensureDeployment_eq] at hd
  have hdres : (ensureDeployment W server h t).res = .ok none := by rw [hd]
  by_cases hport : h.Spec.Port = 0
  · rw [loopBody_no_port W server h t himg hport hdres, hd]
    refine ⟨rfl, ?_⟩
    intro op hop
    simp only [List.mem_singleton] at hop
    exact hop ▸ rfl
  · have hS1 : Settled serviceKind W server h (ensureDeployment W server h t).st := by
      rw [hd]
      exact settled_after_get law deploymentKind_sound serviceKind_sound (hS hport)
    have hs := ensureChild_settled_run hS1
    rw [← ensureService_eq] at hs
    have hsres : (ensureService W server h (ensureDeployment W server h t).st).res
        = .ok none := by rw [hs]
    by_cases hhost : h.Spec.Host = ""
    · rw [loopBody_no_host W server h t himg hport hhost hdres hsres, hs, hd]
      refine ⟨rfl, ?_⟩
      intro op hop
      simp only [List.mem_append, List.mem_singleton] at hop
      rcases hop with hop | hop <;> exact hop ▸ rfl
    · have hI1 : Settled ingressKind W server h
          (ensureService W server h (ensureDeployment W server h t).st).st := by
        rw [hs, hd]
        exact settled_after_get law serviceKind_sound ingressKind_sound
          (settled_after_get law deploymentKind_sound ingressKind_sound (hI hport hhost))
      have hi := ensureChild_settled_run hI1
      rw [← ensureIngress_eq] at hi
      have hbody := loopBody_route W server h t himg hport hhost hdres hsres
      rw [hi] at hbody
      simp only at hbody
      rw [hbody, hs, hd]
      refine ⟨rfl, ?_⟩
      intro op hop
      simp only [List.mem_append, List.mem_singleton] at hop
      rcases hop with hop | hop | hop <;> exact hop ▸ rfl

end Cycle

theorem isGet_not_write {op : Op} (hg : op.isGet = true) :
    op.isCreate = false ∧ op.isUpdate = false ∧ op.isEvent = false := by
  cases op <;> simp_all [Op.isGet, Op.isCreate, Op.isUpdate, Op.isEvent]

/-- The cases in which the second pass is idle: over a store that reads back,
through the JSON round trip, what was last written and is not mutated
otherwise, for a source with an image whose command is not an empty non-nil
slice, if a first pass of the loop body ends normally without a
"deploymentFailed", "serviceFailed" or "ingressFailed" notification, then a
second pass from the state the first one left ends normally and issues no
create call, no update call and no notification: it only fetches. -/
theorem second_pass_only_fetches {σ : Type} (W : World σ) (law : ReadsBackWrites W)
    (server : String) (h : heap) (s : σ) (himg : h.Spec.Image ≠ "")
    (hcmd : h.Spec.Command ≠ some [])
    (hres : (loopBody W server h s).res = .ok ())
    (hok : ∀ op ∈ (loopBody W server h s).ops,
      op.reason ≠ some "deploymentFailed" ∧ op.reason ≠ some "serviceFailed" ∧
        op.reason ≠ some "ingressFailed") :
    (loopBody W server h (loopBody W server h s).st).res = .ok () ∧
    (loopBody W server h (loopBody W server h s).st).ops.countP Op.isCreate = 0 ∧
    (loopBody W server h (loopBody W server h s).st).ops.countP Op.isUpdate = 0 ∧
    (loopBody W server h (loopBody W server h s).st).ops.countP Op.isEvent = 0 ∧
    (∀ op ∈ (loopBody W server h (loopBody W server h s).st).ops, op.isGet = true) := by
  obtain ⟨hD, hS, hI⟩ := loopBody_settles law s himg hcmd hres hok
  obtain ⟨h1, h2⟩ := loopBody_settled law (loopBody W server h s).st himg hD hS hI
  refine ⟨h1, ?_, ?_, ?_, h2⟩
  · rw [List.countP_eq_zero]
    intro op hop
    simp [(isGet_not_write (h2 op hop)).1]
  · rw [List.countP_eq_zero]
    intro op hop
    simp [(isGet_not_write (h2 op hop)).2.1]
  · rw [List.countP_eq_zero]
    intro op hop
    simp [(isGet_not_write (h2 op hop)).2.2]

/-! ## The in-memory store behind JSON reads back what was written -/

theorem memRespond_fst_clock (m : MemState) (n : Nat) (g : Op) :
    (memRespond { m with clock := n } g).1 = (memRespond m g).1 := by
  cases g <;> simp only [memRespond]
  · cases m.deployments.find? _ <;> rfl
  · cases m.services.find? _ <;> rfl
  · cases m.ingresses.find? _ <;> rfl

theorem memRespond_snd_quiet (m : MemState) (op : Op) (hc : op.isCreate = false)
    (hu : op.isUpdate = false) : (memRespond m op).2 = m := by
  cases op <;> simp [Op.isCreate, Op.isUpdate] at hc hu <;> simp only [memRespond]
  · cases m.deployments.find? _ <;> rfl
  · cases m.services.find? _ <;> rfl
  · cases m.ingresses.find? _ <;> rfl

theorem memRespond_fst_congr (m m' : MemState) (g : Op) (hh : m'.heaps = m.heaps)
    (hd : g.child = some Kind.workload → m'.deployments = m.deployments)
    (hs : g.child = some Kind.endpoint → m'.services = m.services)
    (hi : g.child = some Kind.route → m'.ingresses = m.ingresses) (hg : g.isGet = true) :
    (memRespond m' g).1 = (memRespond m g).1 := by
  cases g <;> simp [Op.isGet] at hg <;> simp only [memRespond]
  · rw [hh]
  · rw [hd rfl]
    cases m.deployments.find? _ <;> rfl
  · rw [hs rfl]
    cases m.services.find? _ <;> rfl
  · rw [hi rfl]
    cases m.ingresses.find? _ <;> rfl

theorem memRespond_frame (m : MemState) (op g : Op) (hg : g.isGet = true)
    (hk : op.child ≠ g.child) :
    (memRespond (memRespond m op).2 g).1 = (memRespond m g).1 := by
  by_cases hq : op.isCreate = false ∧ op.isUpdate = false
  · rw [memRespond_snd_quiet m op hq.1 hq.2]
  · apply memRespond_fst_congr _ _ g _ _ _ _ hg <;>
      cases op <;> simp [Op.isCreate, Op.isUpdate] at hq <;>
      first
        | rfl
        | (intro _; rfl)
        | (intro hc
           rw [hc] at hk
           simp [Op.child] at hk)

theorem named_self (m : metadata) : named m.Namespace m.Name m = true := by
  simp [named]

theorem onWire_get {g : Op} (hg : g.isGet = true) : g.onWire = g := by
  cases g <;> simp [Op.isGet] at hg <;> rfl

theorem onWire_kind (op : Op) :
    op.onWire.isCreate = op.isCreate ∧ op.onWire.isUpdate = op.isUpdate ∧
      op.onWire.child = op.child := by
  cases op <;> exact ⟨rfl, rfl, rfl⟩

/-- The in-memory store behind JSON is a store that reads back what was
written. -/
theorem wireWorld_readsBackWrites : ReadsBackWrites wireWorld where
  frame := by
    intro s op g hg hor
    show (memRespond (memRespond s op.onWire).2 g.onWire).1 = (memRespond s g.onWire).1
    rw [onWire_get hg]
    obtain ⟨hc, hu, hk⟩ := onWire_kind op
    rcases hor with ⟨h1, h2⟩ | h3
    · rw [memRespond_snd_quiet s op.onWire (hc.trans h1) (hu.trans h2)]
    · exact memRespond_frame s op.onWire g hg (by rw [hk]; exact h3)
  clock := by
    intro s g _
    exact memRespond_fst_clock s _ g.onWire
  workload := by
    intro s server c body
    constructor <;> intro _ <;>
      exact ⟨{ Body.unreadable with deployment := .ok c.wire }, by
        simp [wireWorld, Op.onWire, memRespond, deploymentKind, named, deployment.wire,
          metadata.wire], rfl⟩
  endpoint := by
    intro s server c body
    constructor <;> intro _ <;>
      exact ⟨{ Body.unreadable with service := .ok c.wire }, by
        simp [wireWorld, Op.onWire, memRespond, serviceKind, named, service.wire,
          metadata.wire], rfl⟩
  route := by
    intro s server c body
    constructor <;> intro _ <;>
      exact ⟨{ Body.unreadable with ingress := .ok c.wire }, by
        simp [wireWorld, Op.onWire, memRespond, ingressKind, named, ingress.wire,
          metadata.wire], rfl⟩

/-- The source "site" (image, port, host, no command) on the empty store
behind JSON: the first pass creates its three children, the second pass only
fetches them. -/
theorem second_pass_only_fetches_site :
    (site.Spec.Image ≠ "" ∧ site.Spec.Command ≠ some [] ∧
      (loopBody wireWorld "srv" site {}).res = .ok () ∧
      (loopBody wireWorld "srv" site {}).ops.countP Op.isCreate = 3) ∧
    ((loopBody wireWorld "srv" site (loopBody wireWorld "srv" site {}).st).res = .ok () ∧
      (loopBody wireWorld "srv" site (loopBody wireWorld "srv" site {}).st).ops.countP
        Op.isCreate = 0 ∧
      (loopBody wireWorld "srv" site (loopBody wireWorld "srv" site {}).st).ops.countP
        Op.isUpdate = 0 ∧
      (loopBody wireWorld "srv" site (loopBody wireWorld "srv" site {}).st).ops.countP
        Op.isEvent = 0) :=
  ⟨⟨by decide, by decide, by decide, by decide⟩,
   ⟨(second_pass_only_fetches wireWorld wireWorld_readsBackWrites "srv" site {} (by decide)
      (by decide) (by decide) (by decide)).1,
    (second_pass_only_fetches wireWorld wireWorld_readsBackWrites "srv" site {} (by decide)
      (by decide) (by decide) (by decide)).2.1,
    (second_pass_only_fetches wireWorld wireWorld_readsBackWrites "srv" site {} (by decide)
      (by decide) (by decide) (by decide)).2.2.1,
    (second_pass_only_fetches wireWorld wireWorld_readsBackWrites "srv" site {} (by decide)
      (by decide) (by decide) (by decide)).2.2.2.1⟩⟩

/-- C4 fails on the code: the source "idle" is listed with `"command": []`
and the store keeps, and on fetch returns, exactly the JSON written.  The
first pass ends normally, creating the Workload and the Endpoint and notifying
both.  The container's `command` is tagged `omitempty`, so the Workload reads
back with a nil command, which `reflect.DeepEqual` tells from the empty one
of the desired Workload: the second pass, and the third after it, issue an
update of the Workload and a "deploymentUpdated" notification, while the
Endpoint is only fetched. -/
theorem second_pass_updates_empty_command :
    (idle.Spec.Image ≠ "" ∧ idle.Spec.Command = some [] ∧
      (loopBody wireWorld "srv" idle {}).res = .ok () ∧
      (loopBody wireWorld "srv" idle {}).ops =
        [Op.getDeployment "srv" "default" "idle",
         Op.createDeployment "srv" (desiredDeployment idle),
         Op.postEvent "srv" (newEvent idle "deploymentCreated" "created deployment" 0),
         Op.getService "srv" "default" "idle",
         Op.createService "srv" (desiredService idle),
         Op.postEvent "srv" (newEvent idle "serviceCreated" "created service" 1)]) ∧
    ((loopBody wireWorld "srv" idle (loopBody wireWorld "srv" idle {}).st).res = .ok () ∧
      (loopBody wireWorld "srv" idle (loopBody wireWorld "srv" idle {}).st).ops =
        [Op.getDeployment "srv" "default" "idle",
         Op.updateDeployment "srv" (desiredDeployment idle),
         Op.postEvent "srv" (newEvent idle "deploymentUpdated" "updated deployment" 2),
         Op.getService "srv" "default" "idle"]) ∧
    ((loopBody wireWorld "srv" idle (loopBody wireWorld "srv" idle
        (loopBody wireWorld "srv" idle {}).st).st).ops.countP Op.isUpdate = 1 ∧
      (loopBody wireWorld "srv" idle (loopBody wireWorld "srv" idle
        (loopBody wireWorld "srv" idle {}).st).st).ops.countP Op.isEvent = 1) := by
  exact ⟨⟨by decide, rfl, by decide, by decide⟩, ⟨by decide, by decide⟩,
    ⟨by decide, by decide⟩⟩

end HeapController
